import Mathlib

/-!
Verification of the TCI teaching C compiler and runtime (repository A1Liu/tcc)
against its natural-language specification.  The Rust sources are shallowly
embedded as executable Lean definitions: machine integers become `Nat`/`Int`
(with explicit wrapping where the Rust code wraps), Rust `HashMap`/`HashSet`
become association lists with the same get/insert/remove semantics, `&mut`
state threading becomes explicit state passing, and Rust loops that are not
obviously structurally recursive take a fuel parameter, returning `none` when
the fuel runs out (so genuine divergence of the source is observable as
`none` for every fuel).  Fallible Rust functions return `Except Error α`.
Panics (`unwrap` on `None` etc.) are also modelled as `none`.
-/

namespace TCI

deriving instance DecidableEq for Except

/-- Association list `get`, mirroring Rust `HashMap::get`. -/
def alGet {κ β : Type} [DecidableEq κ] (m : List (κ × β)) (k : κ) : Option β :=
  match m with
  | [] => none
  | (k2, v) :: rest => if k2 = k then some v else alGet rest k

/-- Association list `insert`, mirroring Rust `HashMap::insert`: replaces the
value if the key is present (returning the old value), otherwise appends. -/
def alInsert {κ β : Type} [DecidableEq κ] (m : List (κ × β)) (k : κ) (v : β) :
    List (κ × β) × Option β :=
  match m with
  | [] => ([(k, v)], none)
  | (k2, v2) :: rest =>
    if k2 = k then ((k2, v) :: rest, some v2)
    else
      let (rest2, old) := alInsert rest k v
      ((k2, v2) :: rest2, old)

/-- Association list `remove`, mirroring Rust `HashMap::remove`. -/
def alRemove {κ β : Type} [DecidableEq κ] (m : List (κ × β)) (k : κ) :
    List (κ × β) × Option β :=
  match m with
  | [] => ([], none)
  | (k2, v2) :: rest =>
    if k2 = k then (rest, some v2)
    else
      let (rest2, old) := alRemove rest k
      ((k2, v2) :: rest2, old)

/-- Set membership, mirroring Rust `HashSet::contains`. -/
def hsContains {κ : Type} [DecidableEq κ] (s : List κ) (k : κ) : Bool :=
  match s with
  | [] => false
  | k2 :: rest => if k2 = k then true else hsContains rest k

/-- Set insertion, mirroring Rust `HashSet::insert`; the `Bool` is `true` when
the element was newly inserted. -/
def hsInsert {κ : Type} [DecidableEq κ] (s : List κ) (k : κ) : List κ × Bool :=
  if hsContains s k then (s, false) else (k :: s, true)

/-- Set removal, mirroring Rust `HashSet::remove` (result set only). -/
def hsRemove {κ : Type} [DecidableEq κ] (s : List κ) (k : κ) : List κ :=
  match s with
  | [] => []
  | k2 :: rest => if k2 = k then rest else k2 :: hsRemove rest k

/-- The `u32` sentinel `!0` used throughout the kernel and file store. -/
def U32_MAX : Nat := 4294967295

/-- Embeds `CodeLoc` (file id, start byte, end byte); `l(begin, end, file)`
in the source constructs one. -/
structure CodeLoc where
  startB : Nat
  endB : Nat
  file : Nat
deriving DecidableEq

/-- Embeds the `l` constructor function for `CodeLoc`. -/
def l (startB endB file : Nat) : CodeLoc := ⟨startB, endB, file⟩

/-- Embeds `NO_FILE`: the `CodeLoc` with file id 0 reserved for no file. -/
def NO_FILE : CodeLoc := l 0 0 0

/-- Embeds `l_from(a, b)`: the location spanning from the start of `a` to the
end of `b` (same shape as `r_from` in `util.rs`). -/
def lFrom (a b : CodeLoc) : CodeLoc := ⟨a.startB, b.endB, a.file⟩

/-- Embeds `ErrorSection` from `util.rs`. -/
structure ErrorSection where
  location : CodeLoc
  message : String
deriving DecidableEq

/-- Embeds `Error` from `util.rs`: a message plus located sections. -/
structure Error where
  message : String
  sections : List ErrorSection
deriving DecidableEq

/-- Embeds `Error::new`. -/
def Error.new (message : String) (sections : List ErrorSection) : Error :=
  ⟨message, sections⟩

/-- Embeds `align_u32` from `util.rs` (also `align_usize`, which is
identical on `Nat`). -/
def alignU32 (size align : Nat) : Nat :=
  if size = 0 then 0 else ((size - 1) / align * align) + align

/-- Byte list of an ASCII string (used for source-text literals and the
keyword table; all embedded texts are ASCII, where this agrees with UTF-8). -/
def ascii (s : String) : List Nat := s.data.map Char.toNat

/-- String prefix test (Rust `str::starts_with`), stated on the character
lists so that it evaluates by kernel reduction. -/
def strStartsWith (s p : String) : Bool := p.data.isPrefixOf s.data

/-- String suffix test (Rust `str::ends_with`). -/
def strEndsWith (s p : String) : Bool := p.data.isSuffixOf s.data

/-- ASCII string of a byte list (inverse of `ascii` on ASCII data). -/
def strOfBytes (bs : List Nat) : String := ⟨bs.map Char.ofNat⟩

/-- Byte slice `data[begin..stop]` of a byte list. -/
def slice (data : List Nat) (b e : Nat) : List Nat :=
  (data.drop b).take (e - b)

/-! ## File store (`src/filedb.rs`) -/

/-- Line start table as produced by `codespan_reporting::files::line_starts`:
index 0 plus the index after every newline byte. -/
def lineStartsAux (bytes : List Nat) (pos : Nat) : List Nat :=
  match bytes with
  | [] => []
  | b :: rest =>
    if b = 10 then (pos + 1) :: lineStartsAux rest (pos + 1)
    else lineStartsAux rest (pos + 1)

/-- Line start table of a byte string (starts with 0). -/
def lineStarts (bytes : List Nat) : List Nat :=
  0 :: lineStartsAux bytes 0

/-- Embeds `File`: a name, the source bytes, and the line-start table. -/
structure File where
  name : String
  source : List Nat
  lineStartsTbl : List Nat
deriving DecidableEq

/-- Embeds `File::new` (arena allocation elided): builds the line start table from the source. -/
def File.new (name : String) (source : List Nat) : File :=
  ⟨name, source, lineStarts source⟩

/-- Embeds `File::size`:
`align_usize(name.len() + source.len(), 8) + line_starts.len() * 8`.
The name length is its UTF-8 byte length. -/
def File.size (f : File) : Nat :=
  alignU32 (f.name.utf8ByteSize + f.source.length) 8 + f.lineStartsTbl.length * 8

/-- Embeds `FileDbSlim`: the slim file store with garbage accounting.
The bump-arena fields (`buckets`, `buckets_next`) manage raw allocation only
and have no observable content, so they are not carried. -/
structure FileDbSlim where
  fileNames : List (String × Nat)
  size : Nat
  garbageSize : Nat
  files : List (Option File)
  emptySlots : List Nat
deriving DecidableEq

/-- Embeds `FileDbSlim::new` (and `with_capacity`, whose capacity argument
only sizes the arena). -/
def FileDbSlim.new : FileDbSlim := ⟨[], 0, 0, [], []⟩

/-- Embeds `FileDbSlim::add_internal`.  Prepends `/` to non-absolute names,
accounts `file.size()` into `size`, then either replaces an existing file
with the same name (moving the old size into garbage) or installs the file
into a popped empty slot or a fresh slot (adding `file.size()` to `size` a
second time, exactly as the source does).  Returns the 1-based file id.
The `empty_slots` vector is kept head-first: a Rust `push` conses onto the
head, so a Rust `pop` (last element) takes the head here.  The `unwrap` on a
dead slot named by `file_names` (a panic, unreachable in reachable states)
is modelled by leaving the store unchanged. -/
def FileDbSlim.addInternal (db : FileDbSlim) (fileName : String)
    (source : List Nat) : FileDbSlim × Nat :=
  let fileNameStr := if strStartsWith fileName "/" then fileName
    else "/" ++ fileName
  let file := File.new fileNameStr source
  let db := { db with size := db.size + file.size }
  match alGet db.fileNames fileNameStr with
  | some fileIdx =>
    match db.files.getD fileIdx none with
    | some fileSlot =>
      let db := { db with
        garbageSize := db.garbageSize + fileSlot.size,
        size := db.size - fileSlot.size,
        files := db.files.set fileIdx (some file) }
      (db, fileIdx + 1)
    | none => (db, fileIdx + 1)
  | none =>
    let (fileIdx, db) :=
      match db.emptySlots with
      | fileIdx :: rest => (fileIdx, { db with emptySlots := rest })
      | [] => (db.files.length, { db with files := db.files ++ [none] })
    let db := { db with
      size := db.size + file.size,
      files := db.files.set fileIdx (some file),
      fileNames := (alInsert db.fileNames fileNameStr fileIdx).1 }
    (db, fileIdx + 1)

/-- Embeds `FileDbSlim::copy_gc`: compacts live files into a fresh store,
pushing a `None` placeholder and recording an empty slot for each dead
slot. -/
def FileDbSlim.copyGC (db : FileDbSlim) : FileDbSlim :=
  let step := fun (acc : FileDbSlim × Nat) (file : Option File) =>
    let (new, idx) := acc
    match file with
    | some file => ((new.addInternal file.name file.source).1, idx + 1)
    | none =>
      ({ new with
          emptySlots := idx :: new.emptySlots,
          files := new.files ++ [none] }, idx + 1)
  (db.files.foldl step (FileDbSlim.new, 0)).1

/-- Embeds `FileDbSlim::add`: runs the copy GC first when
`garbage_size > size * 4`, then delegates to `add_internal`. -/
def FileDbSlim.add (db : FileDbSlim) (fileName : String) (source : List Nat) :
    FileDbSlim × Nat :=
  let db := if db.garbageSize > db.size * 4 then db.copyGC else db
  db.addInternal fileName source

/-- Embeds `FileDbSlim::remove_id`: removes the file with the given 1-based
id, moving its size into garbage and recording the empty slot.  Returns
`false` when the id is unknown or the slot is already empty.  For `file = 0`
the `u32` subtraction `file - 1` wraps to `u32::MAX`, which is out of
bounds, so the lookup fails. -/
def FileDbSlim.removeId (db : FileDbSlim) (file : Nat) : FileDbSlim × Bool :=
  if file = 0 then (db, false) else
  let fileIdx := file - 1
  if fileIdx < db.files.length then
    match db.files.getD fileIdx none with
    | none => (db, false)
    | some fileData =>
      let db := { db with
        files := db.files.set fileIdx none,
        garbageSize := db.garbageSize + fileData.size,
        size := db.size - fileData.size,
        fileNames := (alRemove db.fileNames fileData.name).1,
        emptySlots := fileIdx :: db.emptySlots }
      (db, true)
  else (db, false)

/-- Embeds `io::ErrorKind` (the kinds produced by the file store). -/
inductive IoErrorKind
  | notFound
  | permissionDenied
  | alreadyExists
deriving DecidableEq

/-- Display text of an `io::Error` built from an `ErrorKind`, as Rust's
standard library renders it (used in the lexer's `error finding file`
section). -/
def ioErrorText : IoErrorKind → String
  | .notFound => "entity not found"
  | .permissionDenied => "permission denied"
  | .alreadyExists => "entity already exists"

/-- Embeds `INIT_SYMS.names`: the builtin symbols preallocated at file-store
construction, in insertion order. -/
def INIT_SYMS_NAMES : List String :=
  ["main", "va_list", "printf", "exit", "malloc", "free", "realloc",
   "memcpy", "strlen", "scanf"]

/-- Rust `mem::size_of::<File>()`: three 16-byte fat references. -/
def SIZE_OF_FILE : Nat := 48

/-- Rust `mem::size_of::<Option<File>>()` (niche optimization keeps it 48). -/
def SIZE_OF_OPT_FILE : Nat := 48

/-- Rust `mem::size_of::<&str>()`. -/
def SIZE_OF_STR_REF : Nat := 16

/-- Embeds `FileDb`: the full file store with symbol interner.  `sizeB` is
the `_size` field.  The interner key is the identifier text (a byte
sequence), `names` maps each symbol id to the `CodeLoc` of its first
occurrence. -/
structure FileDb where
  sizeB : Nat
  fileNames : List (String × Nat)
  files : List (Option File)
  translate : List (List Nat × Nat)
  names : List CodeLoc
  fsReadAccess : Bool
deriving DecidableEq

/-- Embeds `FileDb::translate_add_cloc`: interns the text under `cloc`.
Returns `none` when the file does not exist (a Rust index panic). -/
def FileDb.translateAddCloc (db : FileDb) (cloc : CodeLoc) :
    Option (FileDb × Nat) :=
  match db.files.getD cloc.file none with
  | none => none
  | some f =>
    let text := slice f.source cloc.startB cloc.endB
    match alGet db.translate text with
    | some id => some (db, id)
    | none =>
      let idx := db.names.length
      some ({ db with
        names := db.names ++ [cloc],
        translate := (alInsert db.translate text idx).1,
        sizeB := db.sizeB + SIZE_OF_STR_REF }, idx)

/-- Embeds `FileDb::translate_add`: interns `range` of `file`. -/
def FileDb.translateAdd (db : FileDb) (startB endB file : Nat) :
    Option (FileDb × Nat) :=
  db.translateAddCloc (l startB endB file)

/-- Embeds `FileDb::with_capacity` (and `FileDb::new`, whose capacity is
fixed): installs the builtin-symbol file at index 0 and interns each builtin
name.  The interning of builtin names cannot panic because file 0 was just
installed, so the fold keeps the store unchanged in that impossible case. -/
def FileDb.withCapacity (fsReadAccess : Bool) : FileDb :=
  let symsSource := ascii (INIT_SYMS_NAMES.foldl (fun a b => a ++ b) "")
  let file := File.new "" symsSource
  let ranges := (INIT_SYMS_NAMES.foldl
    (fun (acc : List (Nat × Nat) × Nat) name =>
      let b := acc.2
      let e := b + name.utf8ByteSize
      (acc.1 ++ [(b, e)], e)) ([], 0)).1
  let db : FileDb :=
    { sizeB := file.size + SIZE_OF_FILE,
      fileNames := [],
      files := [some file],
      translate := [],
      names := [],
      fsReadAccess }
  ranges.foldl
    (fun db r =>
      match db.translateAdd r.1 r.2 0 with
      | some (db2, _) => db2
      | none => db) db

/-- Embeds `FileDb::new`. -/
def FileDb.mkNew (fsReadAccess : Bool) : FileDb :=
  FileDb.withCapacity fsReadAccess

/-- Embeds `FileDb::add`: errors with `AlreadyExists` when the name is
known, otherwise appends the file and indexes it by name.  The new id is the
index in `files`. -/
def FileDb.add (db : FileDb) (fileName : String) (source : List Nat) :
    Except IoErrorKind (Nat × FileDb) :=
  match alGet db.fileNames fileName with
  | some _ => .error .alreadyExists
  | none =>
    let fileId := db.files.length
    let file := File.new fileName source
    .ok (fileId, { db with
      sizeB := db.sizeB + file.size + SIZE_OF_OPT_FILE,
      files := db.files ++ [some file],
      fileNames := (alInsert db.fileNames fileName fileId).1 })

/-- Embeds `parent_if_file`: the prefix of `path` up to and including its
last `/`.  Returns `none` (a panic in the source) when there is no `/`. -/
def parentIfFile (path : String) : Option String :=
  let r := (path.data.reverse.dropWhile (fun c => c ≠ '/')).reverse
  if r.isEmpty then none else some ⟨r⟩

/-- Path join, modelling `std::path::Path::join` for the uses in the file
store: an absolute right operand replaces the left, otherwise the two are
joined with a single separator. -/
def pathJoin (base inc : String) : String :=
  if strStartsWith inc "/" then inc
  else if strEndsWith base "/" then base ++ inc
  else base ++ "/" ++ inc

/-- Relativity test, modelling `std::path::Path::is_relative` on Linux. -/
def isRelativePath (p : String) : Bool := ¬ strStartsWith p "/"

/-- Embeds `FileDb::add_from_include`: resolves a quoted include relative to
the referring file's directory (absolute paths stand alone), returning the
existing id when the resolved path is already in the store; otherwise reads
the host file system — modelled by the `hostFs` function standing for
`std::fs::read_to_string` — guarded by the `fs_read_access` flag.  Returns
`none` for the panics (missing referrer file, separator-free referrer
name). -/
def FileDb.addFromInclude (hostFs : String → Option (List Nat)) (db : FileDb)
    (inc : String) (file : Nat) : Option (FileDb × Except IoErrorKind Nat) :=
  if isRelativePath inc then
    match db.files.getD file none with
    | none => none
    | some referrer =>
      match parentIfFile referrer.name with
      | none => none
      | some basePath =>
        let pathStr := pathJoin basePath inc
        match alGet db.fileNames pathStr with
        | some id => some (db, .ok id)
        | none =>
          if ¬ db.fsReadAccess then some (db, .error .permissionDenied)
          else match hostFs pathStr with
            | none => some (db, .error .notFound)
            | some source =>
              match db.add pathStr source with
              | .ok (id, db2) => some (db2, .ok id)
              | .error e => some (db, .error e)
  else
    match alGet db.fileNames inc with
    | some id => some (db, .ok id)
    | none =>
      if ¬ db.fsReadAccess then some (db, .error .permissionDenied)
      else match hostFs inc with
        | none => some (db, .error .notFound)
        | some source =>
          match db.add inc source with
          | .ok (id, db2) => some (db2, .ok id)
          | .error e => some (db, .error e)

/-! ## Lexer (`src/lexer.rs`) -/

/-- Embeds `CLOSING_CHAR`: the `!0` byte sentinel returned by
`lex_character` at the closing delimiter. -/
def CLOSING_CHAR : Nat := 255

/-- The payload-free variants of `TokenKind` (keywords, punctuators); kept
as a separate enum so equality derivation stays linear — together with
`TokenKind` below this represents exactly the flat Rust `TokenKind` enum. -/
inductive SimpleTok
  | Void | Char | Int | Long | Float | Double | Unsigned | Static | Signed
  | Struct | Union | Enum | Sizeof | Typedef | Volatile
  | If | Else | Do | While | For | Break | Continue | Return | Goto
  | Dot | DotDotDot | Arrow | Bang | Question | Tilde | Star | Slash | Plus
  | Dash | Percent | PlusPlus | DashDash
  | Eq | EqEq | Neq | Leq | Lt | LtLt | Geq | Gt | GtGt | Amp | AmpAmp
  | Line | LineLine | Caret
  | AmpEq | LineEq | CaretEq | PlusEq | DashEq | SlashEq | StarEq
  | PercentEq | LtLtEq | GtGtEq
  | LBrace | RBrace | LParen | RParen | LBracket | RBracket
  | Semicolon | Colon | Comma
  | Unimplemented | Case | Const | Default | Extern | Switch | Short
deriving DecidableEq

/-- Embeds `TokenKind`.  String-like payloads are byte lists; identifier
payloads are symbol ids; payload-free variants live in `SimpleTok`. -/
inductive TokenKind
  | Ident (id : Nat)
  | TypeIdent (id : Nat)
  | IntLiteral (val : Int)
  | StringLiteral (s : List Nat)
  | CharLiteral (c : Int)
  | Include (f : Nat)
  | IncludeSys (f : Nat)
  | MacroDef (id : Nat)
  | FuncMacroDef (id : Nat)
  | MacroDefEnd
  | Pragma (s : List Nat)
  | simple (s : SimpleTok)
deriving DecidableEq

/-- Embeds `Token`: a kind and a location. -/
structure Token where
  kind : TokenKind
  loc : CodeLoc
deriving DecidableEq

/-- Embeds `Token::new`. -/
def Token.new (kind : TokenKind) (startB endB file : Nat) : Token :=
  ⟨kind, l startB endB file⟩

/-- Embeds the `RESERVED_KEYWORDS` table, keyed by keyword bytes. -/
def RESERVED_KEYWORDS : List (List Nat × TokenKind) :=
  [(ascii ("auto"), .simple .Unimplemented), (ascii ("break"), .simple .Break),
   (ascii ("case"), .simple .Case), (ascii ("char"), .simple .Char),
   (ascii ("const"), .simple .Const), (ascii ("continue"), .simple .Continue),
   (ascii ("default"), .simple .Default), (ascii ("do"), .simple .Do),
   (ascii ("double"), .simple .Double), (ascii ("else"), .simple .Else),
   (ascii ("enum"), .simple .Enum), (ascii ("extern"), .simple .Extern),
   (ascii ("float"), .simple .Float), (ascii ("for"), .simple .For),
   (ascii ("goto"), .simple .Goto), (ascii ("if"), .simple .If),
   (ascii ("inline"), .simple .Unimplemented), (ascii ("int"), .simple .Int),
   (ascii ("long"), .simple .Long), (ascii ("register"), .simple .Unimplemented),
   (ascii ("restrict"), .simple .Unimplemented), (ascii ("return"), .simple .Return),
   (ascii ("short"), .simple .Short), (ascii ("signed"), .simple .Signed),
   (ascii ("sizeof"), .simple .Sizeof), (ascii ("static"), .simple .Static),
   (ascii ("struct"), .simple .Struct), (ascii ("switch"), .simple .Switch),
   (ascii ("typedef"), .simple .Typedef), (ascii ("union"), .simple .Union),
   (ascii ("unsigned"), .simple .Unsigned), (ascii ("void"), .simple .Void),
   (ascii ("volatile"), .simple .Unimplemented), (ascii ("while"), .simple .While),
   (ascii ("_Alignas"), .simple .Unimplemented), (ascii ("_Alignof"), .simple .Unimplemented),
   (ascii ("_Atomic"), .simple .Unimplemented), (ascii ("_Bool"), .simple .Unimplemented),
   (ascii ("_Complex"), .simple .Unimplemented), (ascii ("_Generic"), .simple .Unimplemented),
   (ascii ("_Imaginary"), .simple .Unimplemented),
   (ascii ("_Noreturn"), .simple .Unimplemented),
   (ascii ("_Static_assert"), .simple .Unimplemented),
   (ascii ("_Thread_local"), .simple .Unimplemented),
   (ascii ("_Float16"), .simple .Unimplemented), (ascii ("_Float16x"), .simple .Unimplemented),
   (ascii ("_Float32"), .simple .Unimplemented), (ascii ("_Float32x"), .simple .Unimplemented),
   (ascii ("_Float64"), .simple .Unimplemented), (ascii ("_Float64x"), .simple .Unimplemented),
   (ascii ("_Float128"), .simple .Unimplemented),
   (ascii ("_Float128x"), .simple .Unimplemented),
   (ascii ("_Decimal32"), .simple .Unimplemented),
   (ascii ("_Decimal32x"), .simple .Unimplemented),
   (ascii ("_Decimal64"), .simple .Unimplemented),
   (ascii ("_Decimal64x"), .simple .Unimplemented),
   (ascii ("_Decimal128"), .simple .Unimplemented),
   (ascii ("_Decimal128x"), .simple .Unimplemented)]

/-- Embeds `WHITESPACE`. -/
def WHITESPACE : List Nat := [32, 9]

/-- Embeds `CRLF`. -/
def CRLF : List Nat := [13, 10]

/-- Embeds `is_ident_char`. -/
def isIdentChar (c : Nat) : Bool :=
  decide ((97 ≤ c ∧ c ≤ 122) ∨ (65 ≤ c ∧ c ≤ 90) ∨ c = 95 ∨
    (48 ≤ c ∧ c ≤ 57))

/-- Embeds `Lexer::peek_check`. -/
def peekCheck (data : List Nat) (cur : Nat) (p : Nat → Bool) : Bool :=
  if cur < data.length then p (data.getD cur 0) else false

/-- Embeds `Lexer::peek_eq`. -/
def peekEq (data : List Nat) (cur b : Nat) : Bool :=
  if cur < data.length then decide (data.getD cur 0 = b) else false

/-- Embeds `Lexer::peek_neq`. -/
def peekNeq (data : List Nat) (cur b : Nat) : Bool :=
  if cur < data.length then decide (data.getD cur 0 ≠ b) else false

/-- Embeds `Lexer::peek_eqs`. -/
def peekEqs (data : List Nat) (cur : Nat) (bytes : List Nat) : Bool :=
  if cur < data.length then bytes.contains (data.getD cur 0) else false

/-- Embeds `Lexer::peek_neqs`. -/
def peekNeqs (data : List Nat) (cur : Nat) (bytes : List Nat) : Bool :=
  if cur < data.length then ¬ bytes.contains (data.getD cur 0) else false

/-- Embeds `Lexer::peek_eq_series`. -/
def peekEqSeries (data : List Nat) (cur : Nat) (bytes : List Nat) : Bool :=
  if cur + bytes.length ≤ data.length then
    decide (slice data cur (cur + bytes.length) = bytes)
  else false

/-- Embeds `Lexer::peek_neq_series`. -/
def peekNeqSeries (data : List Nat) (cur : Nat) (bytes : List Nat) : Bool :=
  if cur + bytes.length ≤ data.length then
    decide (slice data cur (cur + bytes.length) ≠ bytes)
  else false

/-- Embeds `Lexer::expect`: the byte at the cursor and the advanced cursor,
or `unexpected end of file`. -/
def expectB (data : List Nat) (cur : Nat) : Except Error (Nat × Nat) :=
  if cur = data.length then .error (Error.new ("unexpected end of file") [])
  else .ok (data.getD cur 0, cur + 1)

/-- A `while cond { current += 1 }` scan; fuel bounds the scan length. -/
def scanWhileP (p : List Nat → Nat → Bool) (data : List Nat) :
    Nat → Nat → Option Nat
  | 0, _ => none
  | fuel + 1, cur => if p data cur then scanWhileP p data fuel (cur + 1)
    else some cur

/-- Scan over whitespace (`while peek_eqs WHITESPACE`). -/
def scanWs (data : List Nat) (fuel cur : Nat) : Option Nat :=
  scanWhileP (fun d c => peekEqs d c WHITESPACE) data fuel cur

/-- Scan to end of line (`while peek_neq \n && peek_neq_series CRLF`). -/
def scanToEol (data : List Nat) (fuel cur : Nat) : Option Nat :=
  scanWhileP (fun d c => peekNeq d c 10 && peekNeqSeries d c CRLF)
    data fuel cur

/-- Scan inside a block comment (`while peek_neq_series */`). -/
def scanBlockComment (data : List Nat) (fuel cur : Nat) : Option Nat :=
  scanWhileP (fun d c => peekNeqSeries d c [42, 47]) data fuel cur

/-- Scan over identifier characters. -/
def scanIdent (data : List Nat) (fuel cur : Nat) : Option Nat :=
  scanWhileP (fun d c => peekCheck d c isIdentChar) data fuel cur

/-- Scan the directive word (`while peek_neqs WHITESPACE`). -/
def scanDirectiveWord (data : List Nat) (fuel cur : Nat) : Option Nat :=
  scanWhileP (fun d c => peekNeqs d c WHITESPACE) data fuel cur

/-- Scan a quoted include name (`while peek_neq b'\"'`). -/
def scanQuoteName (data : List Nat) (fuel cur : Nat) : Option Nat :=
  scanWhileP (fun d c => peekNeq d c 34) data fuel cur

/-- Scan a bracketed include name
(`while peek_neqs [>, \n] && peek_neq_series CRLF`). -/
def scanSysName (data : List Nat) (fuel cur : Nat) : Option Nat :=
  scanWhileP (fun d c => peekNeqs d c [62, 10] && peekNeqSeries d c CRLF)
    data fuel cur

/-- Two's-complement wrap of an `i32` value (the release-mode behavior of
the decimal-literal accumulation; the spec leaves overflow unspecified). -/
def wrap32 (n : Int) : Int := (n + 2147483648) % 4294967296 - 2147483648

/-- Integer-literal accumulation loop of `lex_token`. -/
def scanNum (data : List Nat) : Nat → Nat → Int → Option (Nat × Int)
  | 0, _, _ => none
  | fuel + 1, cur, acc =>
    if peekCheck data cur (fun b => decide (48 ≤ b ∧ b ≤ 57)) then
      scanNum data fuel (cur + 1)
        (wrap32 (wrap32 (acc * 10) + ((data.getD cur 0) - 48 : Nat)))
    else some (cur, acc)

/-- The `i8` reinterpretation of a byte (`byte as i8`). -/
def toI8 (b : Nat) : Int := if b < 128 then (b : Int) else (b : Int) - 256

/-- Embeds `invalid_token`. -/
def invalidToken (file b e : Nat) : Error :=
  Error.new ("invalid token") [⟨l b e file, "token found here"⟩]

/-- Embeds `expected_newline`. -/
def expectedNewline (directiveName : String) (b cur file : Nat) : Error :=
  Error.new ("expected newline after " ++ directiveName ++ " directive")
    [⟨l b cur file, "directive here"⟩]

/-- Embeds `Lexer::lex_character`: one (possibly escaped) character of a
string or char literal.  Returns the byte value (or `CLOSING_CHAR` at the
closing delimiter) and the new cursor. -/
def lexCharacter (surround file : Nat) (data : List Nat) :
    Nat → Nat → Option (Except Error (Nat × Nat))
  | 0, _ => none
  | fuel + 1, cur =>
    match expectB data cur with
    | .error e => some (.error e)
    | .ok (curB, cur) =>
      if ¬ curB < 128 then
        some (.error (Error.new ("character is not valid ascii")
          [⟨l (cur - 1) cur file, "invalid character literal here"⟩]))
      else if curB = surround then some (.ok (CLOSING_CHAR, cur))
      else if curB = 10 ∨ curB = 13 then
        if surround = 34 then
          some (.error (Error.new
            ("invalid character found when parsing string literal")
            [⟨l (cur - 1) cur file, "invalid character here"⟩]))
        else
          some (.error (Error.new
            ("invalid character found when parsing character literal")
            [⟨l (cur - 1) cur file, "invalid character here"⟩]))
      else if curB ≠ 92 then some (.ok (curB, cur))
      else
        match expectB data cur with
        | .error e => some (.error e)
        | .ok (escB, cur) =>
          if escB = 110 then some (.ok (10, cur))
          else if escB = 10 then lexCharacter surround file data fuel cur
          else if escB = 39 then some (.ok (39, cur))
          else if escB = 34 then some (.ok (34, cur))
          else if escB = 48 then some (.ok (0, cur))
          else
            some (.error (Error.new ("invalid escape sequence")
              [⟨l (cur - 2) cur file, "invalid escape sequence here"⟩]))

/-- The string-literal collection loop of `lex_token`: `lex_character` until
`CLOSING_CHAR`, collecting the bytes. -/
def collectString (file : Nat) (data : List Nat) :
    Nat → Nat → List Nat → Option (Except Error (List Nat × Nat))
  | 0, _, _ => none
  | fuel + 1, cur, chars =>
    match lexCharacter 34 file data fuel cur with
    | none => none
    | some (.error e) => some (.error e)
    | some (.ok (c, cur)) =>
      if c = CLOSING_CHAR then some (.ok (chars, cur))
      else collectString file data fuel cur (chars ++ [c])

/-- Embeds `Lexer::lex_token`: one ordinary token starting at `begin0`.
Returns the (possibly extended) symbol store, and the token with the new
cursor.  `none` models the index panic of `data[begin]` past the end. -/
def lexTok (file : Nat) (data : List Nat) (fuel begin0 : Nat) (db : FileDb) :
    Option (FileDb × Except Error (Token × Nat)) :=
  if begin0 < data.length then
    let cur := begin0 + 1
    let b := data.getD begin0 0
    if decide ((65 ≤ b ∧ b ≤ 90) ∨ (97 ≤ b ∧ b ≤ 122) ∨ b = 95) then
      match scanIdent data fuel cur with
      | none => none
      | some cur =>
        let word := slice data begin0 cur
        match alGet RESERVED_KEYWORDS word with
        | some kind => some (db, .ok (Token.new kind begin0 cur file, cur))
        | none =>
          match db.translateAdd begin0 cur file with
          | none => none
          | some (db, id) =>
            some (db, .ok (Token.new (.Ident id) begin0 cur file, cur))
    else if decide (48 ≤ b ∧ b ≤ 57) then
      match scanNum data fuel cur ((b - 48 : Nat) : Int) with
      | none => none
      | some (cur, v) =>
        some (db, .ok (Token.new (.IntLiteral v) begin0 cur file, cur))
    else if b = 34 then
      match collectString file data fuel cur [] with
      | none => none
      | some (.error e) => some (db, .error e)
      | some (.ok (chars, cur)) =>
        some (db, .ok (Token.new (.StringLiteral chars) begin0 cur file, cur))
    else if b = 39 then
      match lexCharacter 39 file data fuel cur with
      | none => none
      | some (.error e) => some (db, .error e)
      | some (.ok (byteV, cur)) =>
        if byteV = CLOSING_CHAR then
          some (db, .error (Error.new ("empty character literal")
            [⟨l begin0 cur file, "found here"⟩]))
        else
          match expectB data cur with
          | .error e => some (db, .error e)
          | .ok (closing, cur) =>
            if closing ≠ 39 then
              some (db, .error (Error.new ("expected closing single quote")
                [⟨l begin0 cur file,
                  "this should be a closing single quote"⟩]))
            else
              some (db, .ok
                (Token.new (.CharLiteral (toI8 byteV)) begin0 cur file, cur))
    else
      let ret := fun (kind : TokenKind) (cur : Nat) =>
        some (db, Except.ok (Token.new kind begin0 cur file, cur))
      if b = 123 then ret (.simple .LBrace) cur
      else if b = 125 then ret (.simple .RBrace) cur
      else if b = 40 then ret (.simple .LParen) cur
      else if b = 41 then ret (.simple .RParen) cur
      else if b = 91 then ret (.simple .LBracket) cur
      else if b = 93 then ret (.simple .RBracket) cur
      else if b = 126 then ret (.simple .Tilde) cur
      else if b = 59 then ret (.simple .Semicolon) cur
      else if b = 58 then ret (.simple .Colon) cur
      else if b = 44 then ret (.simple .Comma) cur
      else if b = 63 then ret (.simple .Question) cur
      else if b = 46 then
        if peekEq data cur 46 then
          if peekEq data (cur + 1) 46 then ret (.simple .DotDotDot) (cur + 2)
          else some (db, .error (invalidToken file begin0 (cur + 1)))
        else ret (.simple .Dot) cur
      else if b = 43 then
        if peekEq data cur 43 then ret (.simple .PlusPlus) (cur + 1)
        else if peekEq data cur 61 then ret (.simple .PlusEq) (cur + 1)
        else ret (.simple .Plus) cur
      else if b = 45 then
        if peekEq data cur 45 then ret (.simple .DashDash) (cur + 1)
        else if peekEq data cur 61 then ret (.simple .DashEq) (cur + 1)
        else if peekEq data cur 62 then ret (.simple .Arrow) (cur + 1)
        else ret (.simple .Dash) cur
      else if b = 47 then
        if peekEq data cur 61 then ret (.simple .SlashEq) (cur + 1) else ret (.simple .Slash) cur
      else if b = 42 then
        if peekEq data cur 61 then ret (.simple .StarEq) (cur + 1) else ret (.simple .Star) cur
      else if b = 37 then
        if peekEq data cur 61 then ret (.simple .PercentEq) (cur + 1)
        else ret (.simple .Percent) cur
      else if b = 62 then
        if peekEq data cur 61 then ret (.simple .Geq) (cur + 1)
        else if peekEq data cur 62 then
          if peekEq data (cur + 1) 61 then ret (.simple .GtGtEq) (cur + 2)
          else ret (.simple .GtGt) (cur + 1)
        else ret (.simple .Gt) cur
      else if b = 60 then
        if peekEq data cur 61 then ret (.simple .Leq) (cur + 1)
        else if peekEq data cur 60 then
          if peekEq data (cur + 1) 61 then ret (.simple .LtLtEq) (cur + 2)
          else ret (.simple .LtLt) (cur + 1)
        else ret (.simple .Lt) cur
      else if b = 33 then
        if peekEq data cur 61 then ret (.simple .Neq) (cur + 1) else ret (.simple .Bang) cur
      else if b = 61 then
        if peekEq data cur 61 then ret (.simple .EqEq) (cur + 1) else ret (.simple .Eq) cur
      else if b = 124 then
        if peekEq data cur 124 then ret (.simple .LineLine) (cur + 1)
        else if peekEq data cur 61 then ret (.simple .LineEq) (cur + 1)
        else ret (.simple .Line) cur
      else if b = 38 then
        if peekEq data cur 38 then ret (.simple .AmpAmp) (cur + 1)
        else if peekEq data cur 61 then ret (.simple .AmpEq) (cur + 1)
        else ret (.simple .Amp) cur
      else if b = 94 then
        if peekEq data cur 61 then ret (.simple .CaretEq) (cur + 1) else ret (.simple .Caret) cur
      else some (db, .error (invalidToken file begin0 cur))
  else none

/-- Embeds `TokenDb`: the shared file-id → token-slice cache. -/
abbrev TokenDb := List (Nat × List Token)

/-- The collaborator context of the lexer: the bundled system libraries
(`SYS_LIBS`: name, header bytes, implementation bytes — their contents live
in `src/includes` and `src/libs`, outside the embedded sources) and the host
file system read used by `add_from_include`. -/
structure LexCtx where
  sysLibs : List (String × List Nat × List Nat)
  hostFs : String → Option (List Nat)

/-- Result state of lexing one file: the incomplete set, the token cache,
the symbol store, and the produced tokens or the error. -/
abbrev LexFileFn :=
  Nat → List Nat → TokenDb → FileDb →
    Option (List Nat × TokenDb × FileDb × Except Error (List Token))

/-- Embeds the `#define` body loop of `lex_macro` (the
`consume_whitespace_macro` + `lex_token` loop shared by the object-like and
function-like branches): skips whitespace and comments, stops at end of
input or a bare newline, continues over backslash-newline, and otherwise
lexes and collects one token. -/
def defineBody (file : Nat) (data : List Nat) :
    Nat → Nat → List Token → FileDb →
    Option (Nat × List Token × FileDb × Except Error Unit)
  | 0, _, _, _ => none
  | fuel + 1, cur, output, db =>
    match scanWs data fuel cur with
    | none => none
    | some cur =>
      if cur = data.length then some (cur, output, db, .ok ())
      else if peekEqSeries data cur [47, 42] then
        match scanBlockComment data fuel (cur + 2) with
        | none => none
        | some cur => defineBody file data fuel (cur + 2) output db
      else
        match (if peekEqSeries data cur [47, 47] then
            scanToEol data fuel (cur + 2) else some cur) with
        | none => none
        | some cur =>
          if peekEq data cur 10 then some (cur, output, db, .ok ())
          else if peekEqSeries data cur CRLF then some (cur, output, db, .ok ())
          else if peekEqSeries data cur [92, 10] then
            defineBody file data fuel (cur + 2) output db
          else if peekEqSeries data cur [92, 13, 10] then
            defineBody file data fuel (cur + 3) output db
          else
            match lexTok file data fuel cur db with
            | none => none
            | some (db, .error e) => some (cur, output, db, .error e)
            | some (db, .ok (tok, cur)) =>
              defineBody file data fuel cur (output ++ [tok]) db

/-- Embeds the tail of the quoted-include branch of `lex_macro`, from the
point where the include target has been resolved to `includeId`: pushes the
`Include` marker token, then fails on an include cycle, returns directly on
a token-cache hit, and otherwise recursively lexes the included file
(tracked in the incomplete set) and caches its tokens. -/
def includeQuotedResolved (recur : LexFileFn) (file includeId begin0 cur : Nat)
    (output : List Token) (inc : List Nat) (tdb : TokenDb) (db : FileDb) :
    Option (Nat × List Token × List Nat × TokenDb × FileDb ×
      Except Error Unit) :=
  let output := output ++ [Token.new (.Include includeId) begin0 cur file]
  if hsContains inc includeId then
    some (cur, output, inc, tdb, db, .error (Error.new
      ("include cycle detected") [⟨l begin0 cur file, "found here"⟩]))
  else if (alGet tdb includeId).isSome then
    some (cur, output, inc, tdb, db, .ok ())
  else
    let inc := (hsInsert inc includeId).1
    match recur includeId inc tdb db with
    | none => none
    | some (inc, tdb, db, .error e) =>
      some (cur, output, inc, tdb, db, .error e)
    | some (inc, tdb, db, .ok toks) =>
      some (cur, output, hsRemove inc includeId,
        (alInsert tdb includeId toks).1, db, .ok ())

/-- Embeds `Lexer::lex_macro`: processes one preprocessor directive (if the
cursor is at `#`), i.e. `#pragma`, `#define`, or `#include`, with any other
directive word a hard error.  `recur` lexes an included file. -/
def lexDir (ctx : LexCtx) (recur : LexFileFn) (file : Nat) (data : List Nat) :
    Nat → Nat → List Token → List Nat → TokenDb → FileDb →
    Option (Nat × List Token × List Nat × TokenDb × FileDb ×
      Except Error Unit)
  | 0, _, _, _, _, _ => none
  | fuel + 1, cur, output, inc, tdb, db =>
    if ¬ peekEq data cur 35 then some (cur, output, inc, tdb, db, .ok ())
    else
      let cur := cur + 1
      let begin0 := cur
      match scanDirectiveWord data fuel cur with
      | none => none
      | some cur =>
        let directive := slice data begin0 cur
        if directive = ascii ("pragma") then
          let cur := cur + 1
          let begin1 := cur
          match scanToEol data fuel cur with
          | none => none
          | some cur =>
            let pragma := slice data begin1 cur
            some (cur, output ++ [Token.new (.Pragma pragma) begin1 cur file],
              inc, tdb, db, .ok ())
        else if directive = ascii ("define") then
          match scanWs data fuel cur with
          | none => none
          | some cur =>
            let identBegin := cur
            if identBegin = data.length then
              some (cur, output, inc, tdb, db, .error (Error.new
                ("unexpected end of file")
                [⟨l identBegin begin0 file, "EOF found here"⟩]))
            else
              match scanIdent data fuel cur with
              | none => none
              | some cur =>
                if cur - identBegin = 0 then
                  some (cur, output, inc, tdb, db, .error (Error.new
                    ("expected an identifer for macro declaration")
                    [⟨l identBegin (identBegin + 1) file,
                      "This should be an identifier"⟩]))
                else
                  match db.translateAdd identBegin cur file with
                  | none => none
                  | some (db, id) =>
                    let defKind := if ¬ peekEq data cur 40 then
                        TokenKind.MacroDef id
                      else TokenKind.FuncMacroDef id
                    let output := output ++ [Token.new defKind begin0 cur file]
                    match defineBody file data fuel cur output db with
                    | none => none
                    | some (cur, output, db, .error e) =>
                      some (cur, output, inc, tdb, db, .error e)
                    | some (cur, output, db, .ok ()) =>
                      some (cur,
                        output ++ [Token.new .MacroDefEnd cur cur file],
                        inc, tdb, db, .ok ())
        else if directive = ascii ("include") then
          match scanWs data fuel cur with
          | none => none
          | some cur =>
            if peekEq data cur 34 then
              let cur := cur + 1
              let nameBegin := cur
              match scanQuoteName data fuel cur with
              | none => none
              | some cur =>
                let nameEnd := cur
                let cur := cur + 1
                if ¬ peekEq data cur 10 ∧ ¬ peekEqSeries data cur CRLF then
                  some (cur, output, inc, tdb, db,
                    .error (expectedNewline "include" begin0 cur file))
                else
                  let includeName := strOfBytes (slice data nameBegin nameEnd)
                  match db.addFromInclude ctx.hostFs includeName file with
                  | none => none
                  | some (db, .error e) =>
                    some (cur, output, inc, tdb, db, .error (Error.new
                      ("error finding file")
                      [⟨l begin0 cur file,
                        "got error \x27" ++ ioErrorText e ++ "\x27"⟩]))
                  | some (db, .ok includeId) =>
                    includeQuotedResolved recur file includeId begin0 cur
                      output inc tdb db
            else if peekEq data cur 60 then
              let cur := cur + 1
              let nameBegin := cur
              match scanSysName data fuel cur with
              | none => none
              | some cur =>
                let nameEnd := cur
                match expectB data cur with
                | .error e => some (cur, output, inc, tdb, db, .error e)
                | .ok (gtB, cur) =>
                  if gtB ≠ 62 then
                    some (cur, output, inc, tdb, db, .error (Error.new
                      ("expected a \x27>\x27")
                      [⟨l (cur - 1) cur file, "this should be a \x27>\x27"⟩]))
                  else
                    let sysFile := strOfBytes (slice data nameBegin nameEnd)
                    if ¬ peekEq data cur 10 ∧ ¬ peekEqSeries data cur CRLF then
                      some (cur, output, inc, tdb, db,
                        .error (expectedNewline "include" begin0 cur file))
                    else
                      let idOpt := alGet db.fileNames sysFile
                      match alGet ctx.sysLibs sysFile with
                      | none =>
                        some (cur, output, inc, tdb, db, .error (Error.new
                          ("library header file not found")
                          [⟨l begin0 cur file, "include found here"⟩]))
                      | some (header, libSrc) =>
                        match idOpt with
                        | some id =>
                          some (cur, output ++
                            [Token.new (.IncludeSys id) begin0 cur file],
                            inc, tdb, db, .ok ())
                        | none =>
                          match db.add sysFile header with
                          | .error _ => none
                          | .ok (id, db) =>
                            match recur id inc tdb db with
                            | none => none
                            | some (inc, tdb, db, .error e) =>
                              some (cur, output, inc, tdb, db, .error e)
                            | some (inc, tdb, db, .ok toks) =>
                              let tdb := (alInsert tdb id toks).1
                              let sysLibName := "libs/" ++ sysFile ++ ".c"
                              match db.add sysLibName libSrc with
                              | .error _ => none
                              | .ok (libId, db) =>
                                match recur libId [] tdb db with
                                | none => none
                                | some (_, tdb, db, .error e) =>
                                  some (cur, output, inc, tdb, db, .error e)
                                | some (_, tdb, db, .ok libToks) =>
                                  let tdb := (alInsert tdb libId libToks).1
                                  some (cur, output ++
                                    [Token.new (.IncludeSys id)
                                      begin0 cur file],
                                    inc, tdb, db, .ok ())
            else
              some (cur, output, inc, tdb, db, .error (Error.new
                ("expected a \x27<\x27 or \x27\"\x27 here")
                [⟨l begin0 cur file, "directive found here"⟩]))
        else
          some (cur, output, inc, tdb, db, .error (Error.new
            ("invalid compiler directive")
            [⟨l begin0 cur file, "directive found here"⟩]))

/-- Embeds `Lexer::lex_macro_or_token`: skips whitespace, comments and
newlines (running `lex_macro` after each newline), then reports end of input
(`true`) or lexes one ordinary token into the output (`false`). -/
def lexDirOrTok (ctx : LexCtx) (recur : LexFileFn) (file : Nat)
    (data : List Nat) :
    Nat → Nat → List Token → List Nat → TokenDb → FileDb →
    Option (Nat × List Token × List Nat × TokenDb × FileDb ×
      Except Error Bool)
  | 0, _, _, _, _, _ => none
  | fuel + 1, cur, output, inc, tdb, db =>
    match scanWs data fuel cur with
    | none => none
    | some cur =>
      if peekEqSeries data cur [47, 42] then
        match scanBlockComment data fuel (cur + 2) with
        | none => none
        | some cur => lexDirOrTok ctx recur file data fuel (cur + 2)
            output inc tdb db
      else
        match (if peekEqSeries data cur [47, 47] then
            scanToEol data fuel (cur + 2) else some cur) with
        | none => none
        | some cur =>
          let afterNl := if peekEq data cur 10 then some (cur + 1)
            else if peekEqSeries data cur CRLF then some (cur + 2)
            else none
          match afterNl with
          | some cur =>
            match lexDir ctx recur file data fuel cur output inc tdb db with
            | none => none
            | some (cur, output, inc, tdb, db, .error e) =>
              some (cur, output, inc, tdb, db, .error e)
            | some (cur, output, inc, tdb, db, .ok ()) =>
              lexDirOrTok ctx recur file data fuel cur output inc tdb db
          | none =>
            if cur = data.length then
              some (cur, output, inc, tdb, db, .ok true)
            else
              match lexTok file data fuel cur db with
              | none => none
              | some (db, .error e) =>
                some (cur, output, inc, tdb, db, .error e)
              | some (db, .ok (tok, cur)) =>
                some (cur, output ++ [tok], inc, tdb, db, .ok false)

/-- The `while !done` loop of `Lexer::lex_file`. -/
def lexFileLoop (ctx : LexCtx) (recur : LexFileFn) (file : Nat)
    (data : List Nat) :
    Nat → Nat → List Token → List Nat → TokenDb → FileDb →
    Option (List Nat × TokenDb × FileDb × Except Error (List Token))
  | 0, _, _, _, _, _ => none
  | fuel + 1, cur, output, inc, tdb, db =>
    match lexDirOrTok ctx recur file data fuel cur output inc tdb db with
    | none => none
    | some (_, _, inc, tdb, db, .error e) => some (inc, tdb, db, .error e)
    | some (cur, output, inc, tdb, db, .ok done) =>
      if done then some (inc, tdb, db, .ok output)
      else lexFileLoop ctx recur file data fuel cur output inc tdb db

/-- Embeds the body of `Lexer::lex_file`: fetches the file's bytes, runs
`lex_macro` once at offset 0, then loops `lex_macro_or_token` to the end.
`none` also covers the `source(file).unwrap()` panic. -/
def lexFileMethod (ctx : LexCtx) (recur : LexFileFn) (fuel : Nat) :
    LexFileFn := fun file inc tdb db =>
  match db.files.getD file none with
  | none => none
  | some f =>
    let data := f.source
    match lexDir ctx recur file data fuel 0 [] inc tdb db with
    | none => none
    | some (_, _, inc, tdb, db, .error e) => some (inc, tdb, db, .error e)
    | some (cur, output, inc, tdb, db, .ok ()) =>
      lexFileLoop ctx recur file data fuel cur output inc tdb db

/-- Ties the include-recursion knot of `Lexer::lex_file` with a fuel bound
on the include depth. -/
def lexFiles (ctx : LexCtx) : Nat → LexFileFn
  | 0 => fun _ _ _ _ => none
  | fuel + 1 => lexFileMethod ctx (lexFiles ctx fuel) (fuel + 1)

/-- Embeds the free function `lex_file`: returns the cached token slice when
the file is present in the token store, otherwise lexes it with a fresh
incomplete set and caches the result. -/
def lexFileTop (ctx : LexCtx) (fuel file : Nat) (tdb : TokenDb)
    (db : FileDb) : Option (TokenDb × FileDb × Except Error (List Token)) :=
  match alGet tdb file with
  | some toks => some (tdb, db, .ok toks)
  | none =>
    match lexFiles ctx fuel file [] tdb db with
    | none => none
    | some (_, tdb, db, .error e) => some (tdb, db, .error e)
    | some (_, tdb, db, .ok toks) =>
      some ((alInsert tdb file toks).1, db, .ok toks)

/-! ## Preprocessor (`src/preprocessor.rs`) -/

/-- Embeds `MacroKind`: function-like, object-like, or marker macros. -/
inductive MacroKind
  | Func (params : List (Nat × CodeLoc)) (toks : List Token)
  | Value (toks : List Token)
  | Marker
deriving DecidableEq

/-- Embeds the `Macro` struct (named `MacroRecord` here): a kind and the
definition location. -/
structure MacroRecord where
  kind : MacroKind
  loc : CodeLoc
deriving DecidableEq

/-- The bare `expected token` error of the preprocessor. -/
def expectTokErr : Error := Error.new ("expected token") []

/-- The parameter-reading loop of `parse_func_macro`: reads identifiers
separated by commas up to the closing `)`, returning the parameters and the
replacement tokens after the `)`. -/
def parseParams : List Token → List (Nat × CodeLoc) →
    Except Error (List (Nat × CodeLoc) × List Token)
  | [], _ => .error expectTokErr
  | tok :: rest, params =>
    match tok.kind with
    | .Ident id | .TypeIdent id =>
      match rest with
      | [] => .error expectTokErr
      | tok2 :: rest2 =>
        if tok2.kind = .simple .Comma then
          parseParams rest2 (params ++ [(id, tok.loc)])
        else if tok2.kind = .simple .RParen then
          .ok (params ++ [(id, tok.loc)], rest2)
        else
          .error (Error.new
            ("expected a \x27)\x27 to end macro parameters or a comma")
            [⟨tok2.loc, "this should be \x27)\x27 or \x27,\x27"⟩])
    | _ =>
      .error (Error.new ("expected a function macro parameter")
        [⟨tok.loc, "this should be an identifier"⟩])

/-- Embeds `parse_func_macro`: splits a collected `#define` body into the
`(`-led parameter list and the replacement tokens.  The first token is the
`(` (the caller only reaches this with one; the source `debug_assert`s
it). -/
def parseFuncMacroDef (loc : CodeLoc) (macroDef : List Token) :
    Except Error MacroRecord :=
  match macroDef with
  | [] => .error expectTokErr
  | _lparen :: rest =>
    match rest with
    | [] => .error expectTokErr
    | _ =>
      match parseParams rest [] with
      | .error e => .error e
      | .ok (params, toks) => .ok ⟨.Func params toks, loc⟩

/-- Embeds `expand_macro`: substitutes every parameter identifier occurrence
in the replacement list by its argument tokens (no re-scanning). -/
def expandMacroToks (macroDef : List Token)
    (params : List (Nat × List Token)) : List Token :=
  match macroDef with
  | [] => []
  | tok :: rest =>
    match tok.kind with
    | .Ident id | .TypeIdent id =>
      (match alGet params id with
       | some expand => expand
       | none => [tok]) ++ expandMacroToks rest params
    | _ => tok :: expandMacroToks rest params

/-- The `MacroDef`/`FuncMacroDef` body collection of `preprocess_file`:
tokens up to `MacroDefEnd`, plus the end token's location and the remaining
stream. -/
def collectMacroToks : List Token → List Token →
    Except Error (List Token × CodeLoc × List Token)
  | [], _ => .error expectTokErr
  | tok :: rest, acc =>
    if tok.kind = .MacroDefEnd then .ok (acc, tok.loc, rest)
    else collectMacroToks rest (acc ++ [tok])

/-- The inner argument-token loop of `preprocess_file`: collects tokens of
one macro argument while the parenthesis depth is nonzero or the current
token is neither `)` nor `,`.  Returns the argument, the stopping token and
the remaining stream. -/
def collectOneArg : List Token → Token → Nat → List Token →
    Except Error (List Token × Token × List Token)
  | toks, currentTok, parenCount, currentParam =>
    if parenCount ≠ 0 ∨ (currentTok.kind ≠ .simple .RParen ∧
        currentTok.kind ≠ .simple .Comma) then
      let currentParam := currentParam ++ [currentTok]
      let parenCount := match currentTok.kind with
        | .simple .LParen => parenCount + 1
        | .simple .RParen => parenCount - 1
        | _ => parenCount
      match toks with
      | [] => .error expectTokErr
      | t :: rest => collectOneArg rest t parenCount currentParam
    else .ok (currentParam, currentTok, toks)

/-- The outer argument loop of `preprocess_file`: one argument per
iteration, stopping when the argument ended at `)`.  As in the source, a
`,` stopping token is not consumed before the next iteration, so this loop
never terminates once an argument ends with a depth-0 comma — the fuel
models that faithfully (`none` for every fuel). -/
def collectArgs : Nat → List Token → Token → List (List Token) →
    Option (Except Error (List (List Token) × Token × List Token))
  | 0, _, _, _ => none
  | fuel + 1, toks, currentTok, actualParams =>
    match collectOneArg toks currentTok 0 [] with
    | .error e => some (.error e)
    | .ok (param, stopTok, rest) =>
      let actualParams := actualParams ++ [param]
      if stopTok.kind = .simple .RParen then
        some (.ok (actualParams, stopTok, rest))
      else collectArgs fuel rest stopTok actualParams

/-- Embeds the `params_hash` construction of `preprocess_file`. -/
def buildParamsHash (macroParams : List (Nat × CodeLoc))
    (actual : List (List Token)) : List (Nat × List Token) :=
  (macroParams.zip actual).foldl (fun m p => (alInsert m p.1.1 p.2).1) []

/-- Embeds the main loop of `preprocess_file`: builds the macro table from
`MacroDef`/`FuncMacroDef` runs, expands object-like macro identifiers by
splicing, expands function-like macro identifiers by reading a
parenthesized argument list and substituting, errors on marker macros, and
copies everything else through. -/
def ppLoop : Nat → List (Nat × MacroRecord) → List Token → List Token →
    Option (Except Error (List Token))
  | 0, _, _, _ => none
  | fuel + 1, macros, output, toks =>
    match toks with
    | [] => some (.ok output)
    | tok :: rest =>
      match tok.kind with
      | .MacroDef id =>
        match collectMacroToks rest [] with
        | .error e => some (.error e)
        | .ok (macroToks, endLoc, rest) =>
          ppLoop fuel
            ((alInsert macros id ⟨.Value macroToks, lFrom tok.loc endLoc⟩).1)
            output rest
      | .FuncMacroDef id =>
        match collectMacroToks rest [] with
        | .error e => some (.error e)
        | .ok (macroToks, endLoc, rest) =>
          match parseFuncMacroDef (lFrom tok.loc endLoc) macroToks with
          | .error e => some (.error e)
          | .ok macroDef => ppLoop fuel ((alInsert macros id macroDef).1)
              output rest
      | .Ident id | .TypeIdent id =>
        match alGet macros id with
        | none => ppLoop fuel macros (output ++ [tok]) rest
        | some macroDef =>
          match macroDef.kind with
          | .Marker => some (.error (Error.new ("used marker macro in code")
              [⟨macroDef.loc, "macro defined here"⟩, ⟨tok.loc, "used here"⟩]))
          | .Value ts => ppLoop fuel macros (output ++ ts) rest
          | .Func params ts =>
            match rest with
            | [] => some (.error expectTokErr)
            | lparenTok :: rest =>
              if lparenTok.kind ≠ .simple .LParen then
                some (.error (Error.new
                  ("expected a left paren \x27(\x27 because of function macro invokation")
                  [⟨tok.loc, "macro used here"⟩,
                   ⟨macroDef.loc, "macro defined here"⟩]))
              else
                match rest with
                | [] => some (.error expectTokErr)
                | firstTok :: rest =>
                  match (if firstTok.kind ≠ .simple .RParen then
                      collectArgs fuel rest firstTok []
                    else some (.ok ([], firstTok, rest))) with
                  | none => none
                  | some (.error e) => some (.error e)
                  | some (.ok (actualParams, lastTok, rest)) =>
                    if params.length ≠ actualParams.length then
                      some (.error (Error.new
                        ("provided wrong number of arguments to macro")
                        [⟨macroDef.loc, "macro defined here (takes in " ++
                          toString params.length ++ " arguments)"⟩,
                         ⟨lFrom tok.loc lastTok.loc,
                          "macro used here (passed in " ++
                          toString actualParams.length ++ " arguments)"⟩]))
                    else
                      ppLoop fuel macros
                        (output ++ expandMacroToks ts
                          (buildParamsHash params actualParams)) rest
      | _ => ppLoop fuel macros (output ++ [tok]) rest

/-- Embeds `preprocess_file`: the main loop from an empty macro table. -/
def preprocessFile (fuel : Nat) (tokens : List Token) :
    Option (Except Error (List Token)) :=
  ppLoop fuel [] [] tokens

/-! ## Typed IR and primary type checker (`src/ast.rs`, `src/type_checker.rs`) -/

/-- Embeds `SizeAlign`. -/
structure SizeAlign where
  size : Nat
  align : Nat
deriving DecidableEq

/-- Embeds the `sa` constructor. -/
def sa (size align : Nat) : SizeAlign := ⟨size, align⟩

/-- Embeds `TC_UNKNOWN_SIZE` (`!0 : u32`). -/
def TC_UNKNOWN_SIZE : Nat := U32_MAX

/-- Embeds `TC_UNKNOWN_SA`. -/
def TC_UNKNOWN_SA : SizeAlign := ⟨TC_UNKNOWN_SIZE, 0⟩

/-- Embeds `TCTypeKind` of the primary checker (`ast.rs`). -/
inductive TCTypeKind
  | I32
  | U64
  | Char
  | Void
  | Struct (ident : Nat) (sa : SizeAlign)
  | Uninit (size : Nat)
deriving DecidableEq

/-- Embeds `TCType` of the primary checker. -/
structure TCType where
  kind : TCTypeKind
  pointerCount : Nat
deriving DecidableEq

/-- Embeds `TCType::new`. -/
def TCType.new (kind : TCTypeKind) (pointerCount : Nat) : TCType :=
  ⟨kind, pointerCount⟩

/-- Embeds `TCType::size` (pointers 8; `U64` 8; `I32` 4; `Char` 1; `Void` 0;
structs from the table; `Uninit` its size). -/
def TCType.size (t : TCType) : Nat :=
  if t.pointerCount > 0 then 8
  else match t.kind with
    | .U64 => 8
    | .I32 => 4
    | .Char => 1
    | .Void => 0
    | .Struct _ s => s.size
    | .Uninit size => size

/-- Embeds `TCType::align` (as `size`, but structs yield their align and
`Uninit` yields its size, exactly as the source does). -/
def TCType.align (t : TCType) : Nat :=
  if t.pointerCount > 0 then 8
  else match t.kind with
    | .U64 => 8
    | .I32 => 4
    | .Char => 1
    | .Void => 0
    | .Struct _ s => s.align
    | .Uninit size => size

/-- Embeds `TCStructMember`. -/
structure TCStructMember where
  declType : TCType
  ident : Nat
  loc : CodeLoc
  offset : Nat
deriving DecidableEq

/-- Embeds `TCStructDefn`. -/
structure TCStructDefn where
  defnIdx : Nat
  members : List TCStructMember
  loc : CodeLoc
  sa : SizeAlign
deriving DecidableEq

/-- Embeds `TCStruct`. -/
structure TCStruct where
  declIdx : Nat
  defn : Option TCStructDefn
  declLoc : CodeLoc
deriving DecidableEq

/-- Embeds the `UncheckedStructDefn` local struct of `check_file`; each
member is `(ident, semi-typed type, loc)`. -/
structure UncheckedStructDefn where
  defnIdx : Nat
  members : List (Nat × TCType × CodeLoc)
  loc : CodeLoc
deriving DecidableEq

/-- Embeds the `UncheckedStruct` local struct of `check_file`. -/
structure UncheckedStruct where
  declIdx : Nat
  declLoc : CodeLoc
  defn : Option UncheckedStructDefn
deriving DecidableEq

/-- The struct table of the primary `TypeEnv`. -/
abbrev StructsMap := List (Nat × TCStruct)

/-- The shape of the nested `check_type` of `check_file`: threading the
visited set and the struct table, producing `(defn_idx, defn_loc, sa)`. -/
abbrev CheckTypeFn := List Nat → StructsMap → Nat → UncheckedStruct →
  Option (List Nat × StructsMap × Except Error (Nat × CodeLoc × SizeAlign))

/-- Embeds the member loop of the nested `check_type` in `check_file`
(`src/type_checker.rs` lines 920-986): records `offset = size` before
aligning, resolves struct-kinded members through `recur` (looking the
member up by its own identifier, exactly as the source does), takes
size/align 8 for pointer-to-later-declared structs, and otherwise uses the
member type's own size/align; then advances
`size = align_u32(size, m_align) + m_size` and accumulates the max
alignment. -/
def checkMembers (recur : CheckTypeFn) (unchecked : List (Nat × UncheckedStruct))
    (typeDecl : UncheckedStruct) (defnDefnIdx : Nat) :
    List (Nat × TCType × CodeLoc) → List Nat → StructsMap → Nat → Nat →
    List TCStructMember →
    Option (List Nat × StructsMap × Except Error (Nat × Nat × List TCStructMember))
  | [], visited, types, size, align, acc =>
    some (visited, types, .ok (size, align, acc))
  | (mIdent, mType, mLoc) :: rest, visited, types, size, align, acc =>
    let offset := size
    let step := fun (mType : TCType) (mSa : SizeAlign) (visited : List Nat)
        (types : StructsMap) =>
      checkMembers recur unchecked typeDecl defnDefnIdx rest visited types
        (alignU32 size mSa.align + mSa.size) (max mSa.align align)
        (acc ++ [⟨mType, mIdent, mLoc, offset⟩])
    match mType.kind with
    | .Struct ident _tSa =>
      match alGet unchecked mIdent with
      | none =>
        some (visited, types, .error (Error.new ("struct does not not exist")
          [⟨mLoc, "struct referenced here"⟩]))
      | some mTypeDecl =>
        if mType.pointerCount = 0 then
          match recur visited types ident mTypeDecl with
          | none => none
          | some (visited, types, .error e) => some (visited, types, .error e)
          | some (visited, types, .ok (mDefnIdx, mDefnLoc, mSa)) =>
            if mSa = TC_UNKNOWN_SA then
              some (visited, types, .error (Error.new
                ("struct has incomplete type") [⟨mLoc, "struct here"⟩]))
            else if mDefnIdx > defnDefnIdx then
              some (visited, types, .error (Error.new
                ("struct is defined later in the file (order matters in C)")
                [⟨mDefnLoc, "struct defined here"⟩,
                 ⟨mLoc, "struct referenced here"⟩]))
            else
              step { mType with kind := .Struct ident mSa } mSa visited types
        else if mTypeDecl.declIdx > typeDecl.declIdx then
          some (visited, types, .error (Error.new
            ("struct is declared later in the file (order matters in C)")
            [⟨mTypeDecl.declLoc, "struct declared here"⟩,
             ⟨mLoc, "struct referenced here"⟩]))
        else step mType (sa 8 8) visited types
    | _ => step mType (sa mType.size mType.align) visited types

/-- Embeds the body of the nested `check_type` of `check_file`: a repeat
visit returns the already-checked data (or the struct-cycle error when the
ident is not yet in the table), a declaration-only entry is recorded with
`TC_UNKNOWN_SA`, and a definition is laid out by `checkMembers`, padded to
`align_up(size, align)`, and recorded. -/
def checkTypeCore (recur : CheckTypeFn)
    (unchecked : List (Nat × UncheckedStruct)) : CheckTypeFn :=
  fun visited types currentIdent typeDecl =>
    let (visited2, inserted) := hsInsert visited currentIdent
    if ¬ inserted then
      match alGet types currentIdent with
      | some found =>
        match found.defn with
        | some defn => some (visited2, types, .ok (defn.defnIdx, defn.loc, defn.sa))
        | none =>
          some (visited2, types, .ok (found.declIdx, found.declLoc, TC_UNKNOWN_SA))
      | none =>
        some (visited2, types, .error (Error.new
          ("struct heirarchy contains cycle")
          [⟨typeDecl.declLoc, "found cycle while solving this type"⟩]))
    else
      match typeDecl.defn with
      | none =>
        some (visited2,
          (alInsert types currentIdent
            ⟨typeDecl.declIdx, none, typeDecl.declLoc⟩).1,
          .ok (typeDecl.declIdx, typeDecl.declLoc, TC_UNKNOWN_SA))
      | some defn =>
        match checkMembers recur unchecked typeDecl defn.defnIdx defn.members
            visited2 types 0 0 [] with
        | none => none
        | some (visited, types, .error e) => some (visited, types, .error e)
        | some (visited, types, .ok (size, align, typedMembers)) =>
          let saV := sa (alignU32 size align) align
          let checkedDefn : TCStructDefn :=
            ⟨defn.defnIdx, typedMembers, defn.loc, saV⟩
          some (visited,
            (alInsert types currentIdent
              ⟨typeDecl.declIdx, some checkedDefn, typeDecl.declLoc⟩).1,
            .ok (defn.defnIdx, defn.loc, saV))

/-- Ties the member-struct recursion knot of the nested `check_type`, with
fuel bounding the nesting depth. -/
def checkTypeRec (unchecked : List (Nat × UncheckedStruct)) :
    Nat → CheckTypeFn
  | 0 => fun _ _ _ _ => none
  | fuel + 1 => checkTypeCore (checkTypeRec unchecked fuel) unchecked

/-- A typed expression of the primary checker as far as `cast_convert`
observes one — the primary `cast_convert` rejects unconditionally without
inspecting its expression, so only the fields named by the claims are
carried. -/
structure NewTCExpr where
  exprType : TCType
  loc : CodeLoc
deriving DecidableEq

/-- Embeds the primary `TypeEnv::cast_convert`
(`src/type_checker.rs` lines 526-537): every cast is rejected with the
`not implemented` error at the cast-target location. -/
def newCastConvert (_castTo : TCType) (castToLoc : CodeLoc)
    (_expr : NewTCExpr) : Except Error NewTCExpr :=
  .error (Error.new ("not implemented")
    [⟨castToLoc, "casts aren\x27t implemented yet"⟩])

/-! ## Old type checker (`src/old/type_checker.rs`)

The typed-IR data model of the old checker lives in `src/tc_ast.rs`, which
is not among the provided sources; its types are reconstructed from their
uses in `src/old/type_checker.rs`, and `size`/`align` follow the spec's
size table (pointers 8/8, 1/4/8-byte integers, structs from their
`SizeAlign`). -/

/-- The old `TCTypeKind` (reconstructed from use): the richer primitive set
plus struct, anonymous-struct and typedef references. -/
inductive OldTCTypeKind
  | U8
  | I8
  | U32
  | I32
  | U64
  | I64
  | Void
  | Struct (ident : Nat) (sa : SizeAlign)
  | AnonStruct (loc : CodeLoc) (sa : SizeAlign)
  | Ident (ident : Nat) (sa : SizeAlign)
deriving DecidableEq

/-- Embeds `TCArrayKind`. -/
inductive TCArrayKind
  | None
  | Fixed (n : Nat)
deriving DecidableEq

/-- The old `TCType`: kind, pointer count and array kind. -/
structure OldTCType where
  kind : OldTCTypeKind
  pointerCount : Nat
  arrayKind : TCArrayKind
deriving DecidableEq

/-- The old `TCType::new` (array kind `None`). -/
def OldTCType.new (kind : OldTCTypeKind) (pointerCount : Nat) : OldTCType :=
  ⟨kind, pointerCount, .None⟩

/-- Size of an old type.  Modelled from the spec: pointers are 8 bytes,
`U8`/`I8` 1, `U32`/`I32` 4, `U64`/`I64` 8, `Void` 0, and struct/typedef
kinds carry their size.  (Array sizing is not modelled; the claims only
exercise `TCArrayKind.None` types.) -/
def OldTCType.size (t : OldTCType) : Nat :=
  if t.pointerCount > 0 then 8
  else match t.kind with
    | .U8 | .I8 => 1
    | .U32 | .I32 => 4
    | .U64 | .I64 => 8
    | .Void => 0
    | .Struct _ s => s.size
    | .AnonStruct _ s => s.size
    | .Ident _ s => s.size

/-- Alignment of an old type (same table as `OldTCType.size`). -/
def OldTCType.align (t : OldTCType) : Nat :=
  if t.pointerCount > 0 then 8
  else match t.kind with
    | .U8 | .I8 => 1
    | .U32 | .I32 => 4
    | .U64 | .I64 => 8
    | .Void => 0
    | .Struct _ s => s.align
    | .AnonStruct _ s => s.align
    | .Ident _ s => s.align

/-- The `VOID` constant compared against in `to_prim_type`. -/
def OLD_VOID : OldTCType := OldTCType.new .Void 0

/-- Embeds `TCPrimType` of the old checker. -/
inductive TCPrimType
  | U8
  | I8
  | U32
  | I32
  | U64
  | I64
  | Pointer (strideLength : Nat)
deriving DecidableEq

/-- A typedef entry of the old `TypeEnv` (reconstructed from use in
`resolve_typedef` and `check_type`). -/
structure OldTypedef where
  typedefType : OldTCType
  defnIdx : Nat
  loc : CodeLoc
deriving DecidableEq

/-- The part of the old `TypeEnv` that the conversion functions read. -/
structure OldTypeEnv where
  typedefs : List (Nat × OldTypedef)

/-- Embeds the old `TypeEnv::resolve_typedef`: chases `Ident` kinds with
zero pointer count through the typedef table.  Fuel bounds the chase (a
cyclic table would loop). -/
def resolveTypedef (env : OldTypeEnv) (loc : CodeLoc) :
    Nat → OldTCType → Option (Except Error OldTCType)
  | 0, _ => none
  | fuel + 1, t =>
    match t.kind with
    | .Ident ident _ =>
      if t.pointerCount ≠ 0 then some (.ok t)
      else
        match alGet env.typedefs ident with
        | none => some (.error (Error.new
            ("couldn\x27t find typedef (This is an error in TCI)")
            [⟨loc, "expression found here"⟩]))
        | some defn => resolveTypedef env loc fuel defn.typedefType
    | _ => some (.ok t)

/-- Embeds the old `TypeEnv::deref` (the rendered type names of the source's
`format!` section texts are elided; no claim observes them, and
`to_prim_type` discards this error outright). -/
def oldDeref (env : OldTypeEnv) (fuel : Nat) (t : OldTCType)
    (valueLoc : CodeLoc) : Option (Except Error OldTCType) :=
  match resolveTypedef env valueLoc fuel t with
  | none => none
  | some (.error e) => some (.error e)
  | some (.ok t) =>
    if t.pointerCount = 0 ∧ t.arrayKind = .None then
      some (.error (Error.new
        ("cannot dereference values that aren\x27t pointers")
        [⟨valueLoc, "value here cannot be dereferenced"⟩]))
    else
      let resultType := match t.arrayKind with
        | .None => OldTCType.new t.kind (t.pointerCount - 1)
        | .Fixed _ => OldTCType.new t.kind t.pointerCount
      if resultType.pointerCount > 0 then some (.ok resultType)
      else
        match resultType.kind with
        | .Struct _ s =>
          if s = TC_UNKNOWN_SA then
            some (.error (Error.new
              ("cannot dereference pointer to struct of unknown size")
              [⟨valueLoc, "value here cannot be dereferenced"⟩]))
          else some (.ok resultType)
        | _ => some (.ok resultType)

/-- Embeds the old `TypeEnv::to_prim_type`: resolves typedefs, classifies
dereferenceable types as pointers with their pointee stride (1 for
`void*`), maps the integer kinds to their primitive, and rejects
everything else. -/
def toPrimType (env : OldTypeEnv) (fuel : Nat) (t : OldTCType)
    (exprLoc : CodeLoc) : Option (Except Error TCPrimType) :=
  match resolveTypedef env exprLoc fuel t with
  | none => none
  | some (.error e) => some (.error e)
  | some (.ok t) =>
    match oldDeref env fuel t exprLoc with
    | none => none
    | some (.ok derefT) =>
      if derefT = OLD_VOID then some (.ok (.Pointer 1))
      else some (.ok (.Pointer derefT.size))
    | some (.error _) =>
      match t.kind with
      | .U8 => some (.ok .U8)
      | .I8 => some (.ok .I8)
      | .U32 => some (.ok .U32)
      | .I32 => some (.ok .I32)
      | .U64 => some (.ok .U64)
      | .I64 => some (.ok .I64)
      | _ => some (.error (Error.new
          ("type of expression cannot be converted to a primitive type or pointer")
          [⟨exprLoc, "expression here found to be this type"⟩]))

/-- A typed expression of the old checker as far as the conversion
functions observe one: a `Conv` node or any other expression kind
(`leaf`), with its type and location. -/
inductive OldTCExpr
  | leaf (tag : Nat) (exprType : OldTCType) (loc : CodeLoc)
  | conv (fromP toP : TCPrimType) (inner : OldTCExpr) (exprType : OldTCType)
      (loc : CodeLoc)
deriving DecidableEq

/-- The `expr_type` field. -/
def OldTCExpr.exprType : OldTCExpr → OldTCType
  | .leaf _ t _ => t
  | .conv _ _ _ t _ => t

/-- The `loc` field. -/
def OldTCExpr.loc : OldTCExpr → CodeLoc
  | .leaf _ _ lc => lc
  | .conv _ _ _ _ lc => lc

/-- Overwrite the `expr_type` field (the `expr.expr_type = ...`
assignments). -/
def OldTCExpr.setType : OldTCExpr → OldTCType → OldTCExpr
  | .leaf tag _ lc, t => .leaf tag t lc
  | .conv f g i _ lc, t => .conv f g i t lc

/-- Embeds the old `TypeEnv::implicit_convert` (assignment conversion):
identity on (typedef-resolved) equal types, otherwise a `Conv` node from
the source primitive to the target primitive around the original
expression. -/
def oldImplicitConvert (env : OldTypeEnv) (fuel : Nat)
    (assignType : OldTCType) (assignLoc : CodeLoc) (expr : OldTCExpr) :
    Option (Except Error OldTCExpr) :=
  if assignType = expr.exprType then some (.ok expr)
  else
    match resolveTypedef env expr.loc fuel expr.exprType with
    | none => none
    | some (.error e) => some (.error e)
    | some (.ok exprType) =>
      match resolveTypedef env assignLoc fuel assignType with
      | none => none
      | some (.error e) => some (.error e)
      | some (.ok assignType) =>
        if assignType = exprType then some (.ok expr)
        else
          match toPrimType env fuel exprType expr.loc with
          | none => none
          | some (.error e) => some (.error e)
          | some (.ok fromP) =>
            match toPrimType env fuel assignType assignLoc with
            | none => none
            | some (.error e) => some (.error e)
            | some (.ok toP) =>
              some (.ok (.conv fromP toP expr assignType expr.loc))

/-- Embeds the old `TypeEnv::cast_convert`: resolves typedefs on both
sides (updating the expression's stored type), identity on equal types,
otherwise a `Conv` node from the source primitive to the target primitive.
(The source computes the primitive pair twice — once as the unused `key` of
discriminants — with identical results; the computation is performed
once here.) -/
def oldCastConvert (env : OldTypeEnv) (fuel : Nat) (castTo : OldTCType)
    (castToLoc : CodeLoc) (expr : OldTCExpr) :
    Option (Except Error OldTCExpr) :=
  match resolveTypedef env castToLoc fuel castTo with
  | none => none
  | some (.error e) => some (.error e)
  | some (.ok castTo) =>
    match resolveTypedef env expr.loc fuel expr.exprType with
    | none => none
    | some (.error e) => some (.error e)
    | some (.ok exprType) =>
      let expr := expr.setType exprType
      if castTo = expr.exprType then some (.ok expr)
      else
        match toPrimType env fuel expr.exprType expr.loc with
        | none => none
        | some (.error e) => some (.error e)
        | some (.ok fromP) =>
          match toPrimType env fuel castTo castToLoc with
          | none => none
          | some (.error e) => some (.error e)
          | some (.ok toP) =>
            some (.ok (.conv fromP toP expr castTo expr.loc))

/-- An unchecked member of the old `check_struct_type` (reconstructed from
use). -/
structure OldUncheckedMember where
  ident : Nat
  memberType : OldTCType
  loc : CodeLoc
  declIdx : Nat
deriving DecidableEq

/-- A member of an old checked struct definition. -/
structure OldTCStructMember where
  ident : Nat
  declType : OldTCType
  loc : CodeLoc
  offset : Nat
  declIdx : Nat
deriving DecidableEq

/-- Embeds the layout loop of the old `check_struct_type`
(`src/old/type_checker.rs` lines 1879-1950) for pointer and primitive
members (struct/typedef-kinded members resolve through the recursive
struct checking, which no claim exercises): pointer members take
`offset = align_up(size, 8)` and 8 bytes; other members take
`offset = align_up(size, member_align)` and their own size; the running
size continues from `offset + m_size` and the alignment accumulates. -/
def oldCheckStructMembers : List OldUncheckedMember → Nat → Nat →
    List OldTCStructMember → Nat × Nat × List OldTCStructMember
  | [], size, align, acc => (size, align, acc)
  | m :: rest, size, align, acc =>
    if m.memberType.pointerCount ≠ 0 then
      let offset := alignU32 size 8
      oldCheckStructMembers rest (offset + 8) (max 8 align)
        (acc ++ [⟨m.ident, m.memberType, m.loc, offset, m.declIdx⟩])
    else
      let tcType := m.memberType
      let mSize := tcType.size
      let mAlign := tcType.align
      let offset := alignU32 size mAlign
      oldCheckStructMembers rest (offset + mSize) (max mAlign align)
        (acc ++ [⟨m.ident, tcType, m.loc, offset, m.declIdx⟩])

/-- The `(members, sa)` result of the old `check_struct_type`: member
layout followed by `sa(align_up(size, align), align)`. -/
def oldCheckStructType (members : List OldUncheckedMember) :
    List OldTCStructMember × SizeAlign :=
  let (size, align, typed) := oldCheckStructMembers members 0 0 []
  (typed, sa (alignU32 size align) align)

/-! ## Runtime kernel (`src/runtime/kernel.rs`)

The kernel's collaborators (`Memory` in `runtime/memory.rs`, `FileSystem`
in `runtime/fs.rs`, the interpreter in `runtime/interpreter.rs`, and the
ecall/error types in `runtime/types.rs` and `runtime/error.rs`) are not
among the provided sources; they are modelled from the spec where noted.
`kernel.rs` itself is embedded from the source. -/

/-- Embeds `IRtStat`. -/
inductive IRtStat
  | Running
  | Blocked
  | Exited (code : Int)
deriving DecidableEq

/-- Embeds `FdKind` (spec §3: per-process file-descriptor kinds). -/
inductive FdKind
  | TermIn
  | TermOut
  | TermErr
  | TermLog
  | FileSys (idx : Nat)
deriving DecidableEq

/-- Embeds `WriteEvent`. -/
inductive WriteEvent
  | StdoutWrite
  | StderrWrite
  | StdlogWrite
deriving DecidableEq

/-- Embeds `OpenMode`. -/
inductive OpenMode
  | Read
  | Create
  | CreateClear
deriving DecidableEq

/-- Ecall error codes.  Modelled from the spec: `DoesntExist`,
read-of-write-only-fd and write-of-read-only-fd errors. -/
inductive EcallError
  | DoesntExist
  | ReadTermOut
  | ReadTermErr
  | ReadTermLog
  | WriteTermIn
deriving DecidableEq

/-- Numeric code of an ecall error (modelled; the exact numbering lives in
the absent `runtime/error.rs`). -/
def EcallError.code : EcallError → Nat
  | .DoesntExist => 1
  | .ReadTermOut => 2
  | .ReadTermErr => 3
  | .ReadTermLog => 4
  | .WriteTermIn => 5

/-- Embeds `EcallError::to_u64`.  Modelled from the spec: the negative
error code packed into a `u64` (two's complement). -/
def EcallError.toU64 (e : EcallError) : Nat := 2 ^ 64 - e.code

/-- Embeds the ecall requests the claims exercise (`EcallExt`); the
read/write/append variants of the source are not modelled since no claim
concerns them. -/
inductive EcallExt
  | Exit (code : Int)
  | OpenFd (name : String) (openMode : OpenMode)
deriving DecidableEq

/-- Embeds `RuntimeStatus`. -/
inductive RuntimeStatus
  | Running
  | Blocked (req : EcallExt)
  | Exited (code : Int)
deriving DecidableEq

/-- Embeds `IError` (the `ierror!` pair of a name and a message; modelled
from use, `runtime/error.rs` being absent). -/
structure IError where
  name : String
  message : String
deriving DecidableEq

/-- Process memory as the kernel observes it.  Modelled from the spec:
an operand stack receiving pushed `u64` results, the count of executed
bytecode operations, and the current `CodeLoc`. -/
structure Memory where
  pushedValues : List Nat
  ops : Nat
  loc : CodeLoc
deriving DecidableEq

/-- Embeds `memory.push(value)` for `u64` values. -/
def Memory.push (m : Memory) (value : Nat) : Memory :=
  { m with pushedValues := m.pushedValues ++ [value] }

/-- A compiled program.  Modelled from the spec: its contents are opaque to
every kernel behavior the claims state. -/
structure BinaryData where
  progId : Nat
deriving DecidableEq

/-- Embeds `Memory::new`: fresh memory for a binary (modelled: empty
operand stack, no ops executed, no location). -/
def Memory.new (_binary : BinaryData) : Memory := ⟨[], 0, NO_FILE⟩

/-- Embeds `Process`. -/
structure Process where
  memory : Memory
  status : IRtStat
deriving DecidableEq

/-- Embeds `Process::new`. -/
def Process.new (binary : BinaryData) : Process :=
  ⟨Memory.new binary, .Running⟩

/-- One element of the `TaggedMultiVec<Process, FdKind>`: the process tag
and its fd list. -/
structure ProcEntry where
  tag : Process
  fds : List FdKind
deriving DecidableEq

/-- The virtual file system.  Modelled from the spec: a list of
`(path, mode, bytes)` entries addressed by index. -/
structure FileSystem where
  entries : List (String × Nat × List Nat)
deriving DecidableEq

/-- Index of a path in the VFS. -/
def FileSystem.findIdx (fs : FileSystem) (name : String) : Option Nat :=
  let rec go : List (String × Nat × List Nat) → Nat → Option Nat
    | [], _ => none
    | (p, _, _) :: rest, i => if p = name then some i else go rest (i + 1)
  go fs.entries 0

/-- Embeds `FileSystem::open`.  Modelled from the spec: opening a missing
entry fails (reported to user code as `DoesntExist`). -/
def FileSystem.open (fs : FileSystem) (name : String) :
    FileSystem × Except EcallError Nat :=
  match fs.findIdx name with
  | some idx => (fs, .ok idx)
  | none => (fs, .error .DoesntExist)

/-- Embeds `FileSystem::open_create`.  Modelled from the spec: creates a
fresh empty entry when the path is missing. -/
def FileSystem.openCreate (fs : FileSystem) (name : String) :
    FileSystem × Except EcallError Nat :=
  match fs.findIdx name with
  | some idx => (fs, .ok idx)
  | none => ({ entries := fs.entries ++ [(name, 0, [])] }, .ok fs.entries.length)

/-- Embeds `FileSystem::open_create_clear`.  Modelled from the spec: as
`open_create` but clearing the contents of an existing entry. -/
def FileSystem.openCreateClear (fs : FileSystem) (name : String) :
    FileSystem × Except EcallError Nat :=
  match fs.findIdx name with
  | some idx =>
    match fs.entries[idx]? with
    | some (p, m, _) => (⟨fs.entries.set idx (p, m, [])⟩, .ok idx)
    | none => (fs, .ok idx)
  | none => ({ entries := fs.entries ++ [(name, 0, [])] }, .ok fs.entries.length)

/-- Embeds the `Kernel` state. -/
structure Kernel where
  files : FileSystem
  inBegin : Nat
  input : String
  output : List (WriteEvent × List Nat)
  processes : List ProcEntry
  termProc : Nat
  currentProc : Nat
  currentProcOpCount : Nat
  activeCount : Nat
deriving DecidableEq

/-- Embeds `PROC_MAX_OP_COUNT`. -/
def PROC_MAX_OP_COUNT : Nat := 5000

/-- Embeds `Kernel::new`. -/
def Kernel.new (files : List (String × Nat × List Nat)) : Kernel :=
  ⟨⟨files⟩, 0, "", [], [], U32_MAX, U32_MAX, 0, 0⟩

/-- The mode dispatch of the `OpenFd` arm of `Kernel::ecall`
(`open` / `open_create` / `open_create_clear` by `OpenMode`). -/
def FileSystem.openBy (fs : FileSystem) (openMode : OpenMode) (name : String) :
    FileSystem × Except EcallError Nat :=
  match openMode with
  | .Read => fs.open name
  | .Create => fs.openCreate name
  | .CreateClear => fs.openCreateClear name

/-- Embeds `Kernel::load_program`: marks the previous terminal process
`Exited(1)` (a panic — `none` — if `term_proc` names no process), resets
the terminal input and output, pushes a fresh process whose fd list is
`vec![TermIn, TermOut, TermOut, TermOut]` exactly as the source builds it,
and bumps the active count.  Returns the new process id. -/
def Kernel.loadProgram (k : Kernel) (binary : BinaryData) :
    Option (Kernel × Nat) :=
  let marked : Option (List ProcEntry) :=
    if k.termProc ≠ U32_MAX then
      match k.processes[k.termProc]? with
      | none => none
      | some prev =>
        some (k.processes.set k.termProc
          { prev with tag := { prev.tag with status := .Exited 1 } })
    else some k.processes
  match marked with
  | none => none
  | some processes =>
    let termProc := processes.length
    let currentProc := if k.currentProc = U32_MAX then termProc
      else k.currentProc
    let proc := Process.new binary
    some ({ k with
      processes := processes ++
        [⟨proc, [.TermIn, .TermOut, .TermOut, .TermOut]⟩],
      termProc := termProc,
      currentProc := currentProc,
      inBegin := 0,
      input := "",
      output := [],
      activeCount := k.activeCount + 1 }, termProc)

/-- Embeds `Kernel::ecall` for the dispatched arms the claims exercise
(`Exit`, `OpenFd`).  `OpenFd` opens the VFS entry by mode; on success it
pushes the process's fd count onto its memory, appends the new
`FileSys` fd, and returns `Blocked` with the same request; on failure it
pushes the packed error code and returns `Running`.  `none` models the
`unwrap` panic on a bad process id. -/
def Kernel.ecall (k : Kernel) (proc : Nat) (req : EcallExt) :
    Option (Kernel × Except IError RuntimeStatus) :=
  match k.processes[proc]? with
  | none => none
  | some procEntry =>
    match req with
    | .Exit exit =>
      let processes := k.processes.set proc
        { procEntry with tag := { procEntry.tag with status := .Exited exit } }
      some ({ k with processes := processes }, .ok (.Exited exit))
    | .OpenFd name openMode =>
      let opened := k.files.openBy openMode name
      let k := { k with files := opened.1 }
      match opened.2 with
      | .ok idx =>
        let len := procEntry.fds.length
        let procEntry := { procEntry with
          tag := { procEntry.tag with
            memory := procEntry.tag.memory.push len },
          fds := procEntry.fds ++ [.FileSys idx] }
        some ({ k with processes := k.processes.set proc procEntry },
          .ok (.Blocked (.OpenFd name openMode)))
      | .error e =>
        let procEntry := { procEntry with
          tag := { procEntry.tag with
            memory := procEntry.tag.memory.push e.toU64 } }
        some ({ k with processes := k.processes.set proc procEntry },
          .ok .Running)

/-- The interpreter interface of `run_op_count(&mut memory, ops_allowed)`
from the absent `runtime/interpreter.rs`: the updated memory, the number of
ops actually run, and either nothing (budget exhausted), an ecall request,
or an error. -/
abbrev Interp := Memory → Nat → Memory × Nat × Except IError (Option EcallExt)

/-- Embeds the `while` loop of `Kernel::run_op_count`: skips exited
processes (resetting the op counter and advancing the cursor modulo the
process count), runs the current process for
`min(count, PROC_MAX_OP_COUNT - current_proc_op_count)` ops, and handles
the interpreter outcome: errors mark the process `Exited(1)` and propagate;
ecalls dispatch synchronously (exits and errors decrement the active
count); budget exhaustion rotates the cursor.  After the loop the result is
`Running` when this call's budget was consumed and `Exited(0)` otherwise
(no active process remains). -/
def runOpCountGo (interp : Interp) :
    Nat → Kernel → Nat → Option (Kernel × Except IError RuntimeStatus)
  | 0, _, _ => none
  | fuel + 1, k, count =>
    if count > 0 ∧ k.activeCount ≠ 0 then
      match k.processes[k.currentProc]? with
      | none => some (k, .error ⟨"NoProcesses",
          "tried to run kernel with no processes (this is a bug in TCI)"⟩)
      | some procEntry =>
        match procEntry.tag.status with
        | .Exited _ =>
          let k := { k with
            currentProcOpCount := 0,
            currentProc := k.currentProc + 1 }
          let k := if k.currentProc = k.processes.length then
              { k with currentProc := 0 } else k
          runOpCountGo interp fuel k count
        | _ =>
          let opsAllowed := min count
            (PROC_MAX_OP_COUNT - k.currentProcOpCount)
          let step := interp procEntry.tag.memory opsAllowed
          let memory := step.1
          let ranCount := step.2.1
          let res := step.2.2
          let procEntry := { procEntry with
            tag := { procEntry.tag with memory := memory } }
          let k := { k with
            processes := k.processes.set k.currentProc procEntry,
            currentProcOpCount := k.currentProcOpCount + ranCount }
          let count := count - ranCount
          match res with
          | .error e =>
            let procEntry := { procEntry with
              tag := { procEntry.tag with status := .Exited 1 } }
            some ({ k with
              processes := k.processes.set k.currentProc procEntry,
              activeCount := k.activeCount - 1 }, .error e)
          | .ok (some ecallReq) =>
            match k.ecall k.currentProc ecallReq with
            | none => none
            | some (k, val) =>
              match val with
              | .ok (.Exited e) =>
                some ({ k with activeCount := k.activeCount - 1 },
                  .ok (.Exited e))
              | .error e =>
                match k.processes[k.currentProc]? with
                | none => none
                | some pe =>
                  some ({ k with
                    activeCount := k.activeCount - 1,
                    processes := k.processes.set k.currentProc
                      { pe with tag :=
                        { pe.tag with status := .Exited 1 } } }, .error e)
              | .ok x => some (k, .ok x)
          | .ok none =>
            let k := { k with
              currentProcOpCount := 0,
              currentProc := k.currentProc + 1 }
            let k := if k.currentProc = k.processes.length then
                { k with currentProc := 0 } else k
            runOpCountGo interp fuel k count
    else
      if count = 0 then some (k, .ok .Running)
      else some (k, .ok (.Exited 0))

/-- Embeds `Kernel::run_op_count` (fuel bounds the loop iterations). -/
def Kernel.runOpCount (interp : Interp) (fuel : Nat) (k : Kernel)
    (count : Nat) : Option (Kernel × Except IError RuntimeStatus) :=
  runOpCountGo interp fuel k count

/-- Modelled from the spec: an interpreter for a process that stays
runnable — it always consumes its full budget and never exits, errors, or
blocks (the spec's "nothing: budget exhausted" outcome). -/
def interpRunnable : Interp :=
  fun m allowed => ({ m with ops := m.ops + allowed }, allowed, .ok none)

/-! ## Concrete claim scenarios -/

/-- The lexer context with no host file system (the wasm configuration) and
no bundled libraries (no claim scenario uses a `<...>` include). -/
def ctx0 : LexCtx := ⟨[], fun _ => none⟩

/-- The two-file include cycle of spec scenario 4: `/a.h` includes `b.h`
and `/b.h` includes `a.h`. -/
def cycleDb : FileDb :=
  match (FileDb.mkNew false).add "/a.h" (ascii ("#include \"b.h\"\n")) with
  | .ok (_, db) =>
    match db.add "/b.h" (ascii ("#include \"a.h\"\n")) with
    | .ok (_, db) => db
    | .error _ => db
  | .error _ => FileDb.mkNew false

/-- Tokens of `#define M(a,b) a` followed by the invocation `M(1,2)`, as the
lexer emits them (macro symbol 100, parameter symbols 1 and 2). -/
def c8Tokens : List Token :=
  [⟨.FuncMacroDef 100, NO_FILE⟩, ⟨.simple .LParen, NO_FILE⟩,
   ⟨.Ident 1, NO_FILE⟩, ⟨.simple .Comma, NO_FILE⟩, ⟨.Ident 2, NO_FILE⟩,
   ⟨.simple .RParen, NO_FILE⟩, ⟨.Ident 1, NO_FILE⟩, ⟨.MacroDefEnd, NO_FILE⟩,
   ⟨.Ident 100, NO_FILE⟩, ⟨.simple .LParen, NO_FILE⟩,
   ⟨.IntLiteral 1, NO_FILE⟩, ⟨.simple .Comma, NO_FILE⟩,
   ⟨.IntLiteral 2, NO_FILE⟩, ⟨.simple .RParen, NO_FILE⟩]

/-- The macro table after processing the `#define M(a,b) a` run of
`c8Tokens`. -/
def c8MacroTable : List (Nat × MacroRecord) :=
  [(100, ⟨.Func [(1, NO_FILE), (2, NO_FILE)] [⟨.Ident 1, NO_FILE⟩],
    lFrom NO_FILE NO_FILE⟩)]

/-- The remaining stream of `c8Tokens` at the `M(1,2)` invocation. -/
def c8Invocation : List Token :=
  [⟨.Ident 100, NO_FILE⟩, ⟨.simple .LParen, NO_FILE⟩,
   ⟨.IntLiteral 1, NO_FILE⟩, ⟨.simple .Comma, NO_FILE⟩,
   ⟨.IntLiteral 2, NO_FILE⟩, ⟨.simple .RParen, NO_FILE⟩]

/-- One replacement `add` of file `b` in the slim store. -/
def c3AddB (db : FileDbSlim) : FileDbSlim := (db.add "b" (ascii ("y"))).1

/-- Iterated replacement adds. -/
def c3Rep : Nat → FileDbSlim → FileDbSlim
  | 0, db => db
  | n + 1, db => c3Rep n (c3AddB db)

/-- Slim-store state with a live file `/b` (id 2) behind an empty slot
(file `/a`, id 1, was removed) and with enough accumulated garbage that the
next `add` triggers the copy GC: add `a`, add `b`, remove id 1, then
replace `b` twelve times. -/
def c3Pre : FileDbSlim :=
  c3Rep 12 ((((FileDbSlim.new.add "a" (ascii ("x"))).1.add "b"
    (ascii ("y"))).1.removeId 1).1)

/-- The struct `S { int a; char b; int c; }` (ident 50, members 10/11/12)
as `check_file` sequentializes it for the primary checker. -/
def c1StructS : UncheckedStruct :=
  ⟨0, NO_FILE, some ⟨0,
    [(10, TCType.new .I32 0, NO_FILE), (11, TCType.new .Char 0, NO_FILE),
     (12, TCType.new .I32 0, NO_FILE)], NO_FILE⟩⟩

/-- The members of `struct S` as the old checker sees them (`char` maps to
`I8` there). -/
def c1OldMembers : List OldUncheckedMember :=
  [⟨10, OldTCType.new .I32 0, NO_FILE, 0⟩,
   ⟨11, OldTCType.new .I8 0, NO_FILE, 0⟩,
   ⟨12, OldTCType.new .I32 0, NO_FILE, 0⟩]

/-- A kernel with one freshly loaded process and an empty VFS. -/
def oneProcKernel : Kernel :=
  match (Kernel.new []).loadProgram ⟨0⟩ with
  | some (k, _) => k
  | none => Kernel.new []

/-- An old-checker environment with no typedefs. -/
def oldEnv0 : OldTypeEnv := ⟨[]⟩

/-- An `i64`-typed operand expression for the cast witness. -/
def i64Expr : OldTCExpr := .leaf 0 (OldTCType.new .I64 0) NO_FILE

/-- The `i8` type for the cast witness. -/
def i8Type : OldTCType := OldTCType.new .I8 0

/-- A runnable process entry with the given executed-op count (fresh
memory otherwise, the fd set of a loaded process). -/
def runnableEntry (opsE : Nat) : ProcEntry :=
  ⟨⟨⟨[], opsE, NO_FILE⟩, .Running⟩, [.TermIn, .TermOut, .TermOut, .TermOut]⟩

/-- A kernel of `K` runnable processes with per-process executed-op counts
`opsOf`, scheduler cursor at `c0`, a fresh quantum, and a consistent active
count. -/
def fairKernel (K c0 : Nat) (opsOf : Nat → Nat) : Kernel :=
  { files := ⟨[]⟩,
    inBegin := 0,
    input := "",
    output := [],
    processes := (List.range K).map (fun i => runnableEntry (opsOf i)),
    termProc := U32_MAX,
    currentProc := c0,
    currentProcOpCount := 0,
    activeCount := K }

/-- Repeated host calls of `run_op_count(5000)` (as the wasm driver makes
them), requiring each call to come back `Running`. -/
def iterCalls : Nat → Kernel → Option Kernel
  | 0, k => some k
  | n + 1, k =>
    match Kernel.runOpCount interpRunnable 2 k 5000 with
    | some (k, .ok .Running) => iterCalls n k
    | _ => none

/-- How many of the first `N` quanta a round-robin rotation starting at
cursor `c0` (advancing by one modulo `K` each quantum) spends on process
`i`. -/
def schedCount (K : Nat) : Nat → Nat → Nat → Nat
  | _, 0, _ => 0
  | c0, n + 1, i => (if c0 = i then 1 else 0) + schedCount K ((c0 + 1) % K) n i

/-! # Theorems for the claims -/

/-! ## Shared helper lemmas -/

/-- Inserting a key and reading it back yields the inserted value. -/
lemma alGet_alInsert_self {κ β : Type} [DecidableEq κ]
    (m : List (κ × β)) (k : κ) (v : β) :
    alGet (alInsert m k v).1 k = some v := by
  induction m with
  | nil => simp [alGet, alInsert]
  | cons head tail ih =>
    by_cases h : head.1 = k
    · simp [alGet, alInsert, h]
    · obtain ⟨k2, v2⟩ := head
      simp only at h
      simp [alGet, alInsert, h, ih]

/-- A present slot stays present (and unchanged) after appending slots. -/
lemma getD_append_some {α : Type} (xs ys : List (Option α)) (i : Nat) (x : α)
    (h : xs.getD i none = some x) : (xs ++ ys).getD i none = some x := by
  induction xs generalizing i with
  | nil => simp [List.getD] at h
  | cons a t ih =>
    cases i with
    | zero => simpa [List.getD] using h
    | succ j =>
      simp only [List.getD, List.getElem?_cons_succ, List.cons_append] at h ⊢
      exact ih j h

/-- `set_type` with an expression's own type is the identity. -/
lemma setType_exprType_self (e : OldTCExpr) : e.setType e.exprType = e := by
  cases e <;> rfl

/-! ## C10 -/

/-- C10: a function-like `#define` whose parameter header has `)` directly
after `(` is rejected by `parse_func_macro` with the
`expected a function macro parameter` error, so zero-parameter function-like
macros cannot be defined. -/
theorem c10_zero_param_func_macro_rejected (loc : CodeLoc) (lp rp : Token)
    (rest : List Token) (h : rp.kind = .simple .RParen) :
    parseFuncMacroDef loc (lp :: rp :: rest) =
      .error (Error.new ("expected a function macro parameter")
        [⟨rp.loc, "this should be an identifier"⟩]) := by
  obtain ⟨kind, lc⟩ := rp
  cases h
  rfl

/-- Witness for C10 at the header of `#define F() 1`. -/
theorem c10_zero_param_func_macro_rejected_witness :
    (Token.mk (.simple .RParen) NO_FILE).kind = .simple .RParen ∧
    parseFuncMacroDef NO_FILE
        [⟨.simple .LParen, NO_FILE⟩, ⟨.simple .RParen, NO_FILE⟩,
         ⟨.IntLiteral 1, NO_FILE⟩] =
      .error (Error.new ("expected a function macro parameter")
        [⟨NO_FILE, "this should be an identifier"⟩]) :=
  ⟨rfl, c10_zero_param_func_macro_rejected NO_FILE ⟨.simple .LParen, NO_FILE⟩
    ⟨.simple .RParen, NO_FILE⟩ [⟨.IntLiteral 1, NO_FILE⟩] rfl⟩

/-! ## C8 -/

/-- One argument collection starting at a depth-0 comma stops immediately,
consuming nothing. -/
lemma collectOneArg_at_comma (toks : List Token) (tok : Token)
    (h : tok.kind = .simple .Comma) :
    collectOneArg toks tok 0 [] = .ok ([], tok, toks) := by
  unfold collectOneArg
  simp [h]

/-- Once the current token is a depth-0 comma, the argument loop makes no
progress: it returns `none` at every fuel. -/
lemma collectArgs_comma_stuck (tok : Token) (h : tok.kind = .simple .Comma) :
    ∀ fuel toks acc, collectArgs fuel toks tok acc = none := by
  intro fuel
  induction fuel with
  | zero => intro toks acc; rfl
  | succ n ih =>
    intro toks acc
    rw [collectArgs, collectOneArg_at_comma toks tok h]
    simp [h, ih]

/-- The argument collection of `M(1,2)` diverges at every fuel. -/
lemma collectArgs_c8_none : ∀ m, collectArgs m
    [⟨.simple .Comma, NO_FILE⟩, ⟨.IntLiteral 2, NO_FILE⟩,
     ⟨.simple .RParen, NO_FILE⟩] ⟨.IntLiteral 1, NO_FILE⟩ [] = none := by
  intro m
  cases m with
  | zero => rfl
  | succ m2 => exact collectArgs_comma_stuck ⟨.simple .Comma, NO_FILE⟩ rfl m2 _ _

/-- The preprocessor loop at the `M(1,2)` invocation returns `none` at every
fuel. -/
lemma ppLoop_c8_invoke_none :
    ∀ g, ppLoop (g + 1) c8MacroTable [] c8Invocation = none := by
  intro g
  have hs := collectArgs_c8_none g
  rw [ppLoop.eq_def]
  simp only [c8MacroTable, c8Invocation, alGet, hs]
  rfl

/-- C8: invoking the two-parameter macro of `#define M(a,b) a` as `M(1,2)`
makes `preprocess_file` diverge (`none` at every fuel): the argument loop
never consumes a depth-0 comma, so a well-formed two-argument invocation
loops forever instead of expanding. -/
theorem c8_two_arg_invocation_diverges :
    ∀ fuel, preprocessFile fuel c8Tokens = none := by
  intro fuel
  match fuel with
  | 0 => rfl
  | 1 => rfl
  | n + 2 =>
    have h1 : preprocessFile (n + 2) c8Tokens =
        ppLoop (n + 1) c8MacroTable [] c8Invocation := rfl
    rw [h1]
    exact ppLoop_c8_invoke_none n

/-! ## C3 -/

/-- C3: the copy GC does not preserve file ids.  In `c3Pre` the live file
`/b` sits in slot 1 (file id 2) behind an empty slot, and the accumulated
garbage exceeds four times the live size, so the next `add` runs the GC;
afterwards slot 1 is gone — the store has a single slot and `/b` now lives
in slot 0 (file id 1), so the pre-GC handle 2 no longer reaches it. -/
theorem c3_copy_gc_relocates_live_file :
    c3Pre.files.getD 1 none = some (File.new ("/b") (ascii ("y"))) ∧
    c3Pre.garbageSize > 4 * c3Pre.size ∧
    (c3Pre.add ("b") (ascii ("y"))).1.files.getD 1 none = none ∧
    (c3Pre.add ("b") (ascii ("y"))).1.files.length = 1 ∧
    alGet (c3Pre.add ("b") (ascii ("y"))).1.fileNames ("/b") = some 0 := by
  decide

/-! ## C1 -/

set_option synthInstance.maxSize 1024 in
/-- C1: the primary checker records each member's offset *before* aligning
the running size, so `struct S { int a; char b; int c; }` gets offsets
0, 4, 5 (not the specified 0, 4, 8) while its total size is still 12;
the old checker lays the same struct out with offsets 0, 4, 8, and the
correct third offset is `align_u32(5, 4) = 8`. -/
theorem c1_member_offsets_recorded_before_alignment :
    checkTypeRec [(50, c1StructS)] 2 [] [] 50 c1StructS =
      some ([50], [(50, ⟨0, some ⟨0,
        [⟨TCType.new .I32 0, 10, NO_FILE, 0⟩,
         ⟨TCType.new .Char 0, 11, NO_FILE, 4⟩,
         ⟨TCType.new .I32 0, 12, NO_FILE, 5⟩], NO_FILE, sa 12 4⟩, NO_FILE⟩)],
        .ok (0, NO_FILE, sa 12 4)) ∧
    (oldCheckStructType c1OldMembers).1.map
      (fun (m : OldTCStructMember) => m.offset) = [0, 4, 8] ∧
    (oldCheckStructType c1OldMembers).2 = sa 12 4 ∧
    alignU32 5 4 = 8 := by
  decide

/-! ## C5 -/

/-- C5 counterexample: the primary checker's `cast_convert` rejects even the
plain cast `(char) e` of an `int` expression with `not implemented` — it
never consults a conversion lookup nor accepts loss-of-information casts. -/
theorem c5_primary_cast_rejected :
    newCastConvert (TCType.new .Char 0) NO_FILE ⟨TCType.new .I32 0, NO_FILE⟩ =
      .error (Error.new ("not implemented")
        [⟨NO_FILE, "casts aren\x27t implemented yet"⟩]) := rfl

/-- C5 (amended to the old checker, `src/old/type_checker.rs`): when the
typedef resolutions are identities and the types differ, `cast_convert`
produces exactly what the assignment conversion `implicit_convert` produces
(the same `(source-prim, target-prim)` `Conv` node); and it accepts the
loss-of-information cast `(char) e` of an `i64` expression, wrapping it in
`Conv(I64, I8)`. -/
theorem c5_old_cast_matches_assignment_conversion (env : OldTypeEnv)
    (fuel : Nat) (castTo : OldTCType) (lcc : CodeLoc) (expr : OldTCExpr)
    (hc : resolveTypedef env lcc fuel castTo = some (.ok castTo))
    (he : resolveTypedef env expr.loc fuel expr.exprType =
      some (.ok expr.exprType))
    (hne : castTo ≠ expr.exprType) :
    oldCastConvert env fuel castTo lcc expr =
      oldImplicitConvert env fuel castTo lcc expr ∧
    oldCastConvert oldEnv0 2 i8Type NO_FILE i64Expr =
      some (.ok (.conv .I64 .I8 i64Expr i8Type NO_FILE)) := by
  constructor
  · simp only [oldCastConvert, oldImplicitConvert, hc, he,
      setType_exprType_self, if_neg hne]
  · decide

/-- Witness for C5: the identity resolutions and distinctness at the
concrete `(char)(i64 expression)` cast. -/
theorem c5_old_cast_matches_assignment_conversion_witness :
    resolveTypedef oldEnv0 NO_FILE 2 i8Type = some (.ok i8Type) ∧
    resolveTypedef oldEnv0 i64Expr.loc 2 i64Expr.exprType =
      some (.ok i64Expr.exprType) ∧
    i8Type ≠ i64Expr.exprType ∧
    (oldCastConvert oldEnv0 2 i8Type NO_FILE i64Expr =
        oldImplicitConvert oldEnv0 2 i8Type NO_FILE i64Expr ∧
      oldCastConvert oldEnv0 2 i8Type NO_FILE i64Expr =
        some (.ok (.conv .I64 .I8 i64Expr i8Type NO_FILE))) :=
  ⟨by decide, by decide, by decide,
    c5_old_cast_matches_assignment_conversion oldEnv0 2 i8Type NO_FILE i64Expr
      (by decide) (by decide) (by decide)⟩

/-! ## C4 -/

/-- C4 counterexample: the one process loaded into a fresh kernel starts
with fd kinds `TermIn, TermOut, TermOut, TermOut` — indices 2 and 3 are
`TermOut`, not the claimed `TermErr` and `TermLog`. -/
theorem c4_fd_kinds_counterexample :
    oneProcKernel.processes.map (fun (pe : ProcEntry) => pe.fds) =
      [[.TermIn, .TermOut, .TermOut, .TermOut]] ∧
    ([FdKind.TermIn, .TermOut, .TermOut, .TermOut] ≠
      [.TermIn, .TermOut, .TermErr, .TermLog]) := by
  decide

/-- C4 (amended): every process created by `Kernel::load_program` starts
with exactly four preloaded fds, of kinds
`TermIn, TermOut, TermOut, TermOut` (the source builds `vec![i, o, o, o]`),
not `TermIn, TermOut, TermErr, TermLog`. -/
theorem c4_loaded_process_fds (k k2 : Kernel) (b : BinaryData) (pid : Nat)
    (h : k.loadProgram b = some (k2, pid)) :
    k2.processes[pid]? =
      some ⟨Process.new b, [.TermIn, .TermOut, .TermOut, .TermOut]⟩ := by
  simp only [Kernel.loadProgram] at h
  split at h
  · exact absurd h (by simp)
  · rename_i processes hm
    simp only [Option.some.injEq, Prod.mk.injEq] at h
    obtain ⟨hk, hp⟩ := h
    subst hk hp
    exact List.getElem?_concat_length processes _

/-- Witness for C4: the freshly loaded kernel's process 0. -/
theorem c4_loaded_process_fds_witness :
    (Kernel.new []).loadProgram ⟨0⟩ = some (oneProcKernel, 0) ∧
    oneProcKernel.processes[0]? =
      some ⟨Process.new ⟨0⟩, [.TermIn, .TermOut, .TermOut, .TermOut]⟩ :=
  ⟨by decide, c4_loaded_process_fds (Kernel.new []) oneProcKernel ⟨0⟩ 0 (by decide)⟩

/-! ## C2 -/

/-- C2 counterexample: an `OpenFd` ecall that fails (opening a missing file
for reading) pushes the packed error code and returns `Running`, not
`Blocked`. -/
theorem c2_openfd_failure_returns_running :
    oneProcKernel.ecall 0 (.OpenFd ("f") .Read) =
      some ({ oneProcKernel with processes :=
        [⟨⟨⟨[2 ^ 64 - 1], 0, NO_FILE⟩, .Running⟩,
          [.TermIn, .TermOut, .TermOut, .TermOut]⟩] }, .ok .Running) ∧
    (Except.ok (ε := IError) RuntimeStatus.Running ≠
      .ok (.Blocked (.OpenFd ("f") .Read))) := by
  decide

/-- C2 (amended): for every `OpenFd` ecall dispatched by `Kernel::ecall` on
a live process, on success a `FileSys` fd is appended to the process's fd
list, its index is pushed onto the process's memory, and the ecall returns
`Blocked`; on failure the packed error code is pushed and the ecall returns
`Running` (not `Blocked`). -/
theorem c2_openfd_dispatch (k : Kernel) (proc : Nat) (pe : ProcEntry)
    (name : String) (mode : OpenMode)
    (h1 : k.processes[proc]? = some pe) :
    (∀ fs2 idx, k.files.openBy mode name = (fs2, .ok idx) →
      k.ecall proc (.OpenFd name mode) =
        some ({ k with
            files := fs2,
            processes := k.processes.set proc
              { pe with
                tag := { pe.tag with
                  memory := pe.tag.memory.push pe.fds.length },
                fds := pe.fds ++ [.FileSys idx] } },
          .ok (.Blocked (.OpenFd name mode)))) ∧
    (∀ fs2 e, k.files.openBy mode name = (fs2, .error e) →
      k.ecall proc (.OpenFd name mode) =
        some ({ k with
            files := fs2,
            processes := k.processes.set proc
              { pe with
                tag := { pe.tag with
                  memory := pe.tag.memory.push e.toU64 } } },
          .ok .Running)) := by
  constructor
  · intro fs2 idx h2
    simp only [Kernel.ecall, h1, h2]
  · intro fs2 e h2
    simp only [Kernel.ecall, h1, h2]

/-- Witness for C2: the failure branch on a fresh kernel with no files. -/
theorem c2_openfd_dispatch_witness :
    oneProcKernel.ecall 0 (.OpenFd ("f") .Read) =
      some ({ oneProcKernel with
          files := oneProcKernel.files,
          processes := oneProcKernel.processes.set 0
            { (⟨Process.new ⟨0⟩, [.TermIn, .TermOut, .TermOut, .TermOut]⟩ :
                ProcEntry) with
              tag := { (Process.new ⟨0⟩) with
                memory := (Process.new ⟨0⟩).memory.push
                  EcallError.DoesntExist.toU64 } } },
        .ok .Running) :=
  (c2_openfd_dispatch oneProcKernel 0
      ⟨Process.new ⟨0⟩, [.TermIn, .TermOut, .TermOut, .TermOut]⟩
      ("f") .Read (by decide)).2
    oneProcKernel.files .DoesntExist (by decide)

/-! ## C6 -/

/-- C6: a quoted `#include` whose resolved target id is already in the
in-progress (incomplete) set fails with `include cycle detected` at the
include directive (first conjunct, directly at the seam of `lex_macro`);
concretely, lexing `/a.h` of the two-file cycle `/a.h → /b.h → /a.h` fails
with that error located at the second visit of the `#include "b.h"`
directive of `/a.h`, and the file store still resolves both files
afterwards (the result store is the unchanged `cycleDb`). -/
theorem c6_include_cycle_detected :
    (∀ (recur : LexFileFn) (file includeId begin0 cur : Nat)
        (output : List Token) (inc : List Nat) (tdb : TokenDb) (db : FileDb),
      hsContains inc includeId = true →
      includeQuotedResolved recur file includeId begin0 cur output inc tdb db =
        some (cur,
          output ++ [Token.new (.Include includeId) begin0 cur file],
          inc, tdb, db,
          .error (Error.new ("include cycle detected")
            [⟨l begin0 cur file, "found here"⟩]))) ∧
    lexFileTop ctx0 50 1 [] cycleDb =
      some ([], cycleDb, .error (Error.new ("include cycle detected")
        [⟨l 1 14 1, "found here"⟩])) ∧
    alGet cycleDb.fileNames ("/a.h") = some 1 ∧
    alGet cycleDb.fileNames ("/b.h") = some 2 := by
  refine ⟨?_, by decide, by decide, by decide⟩
  intro recur file includeId begin0 cur output inc tdb db h
  unfold includeQuotedResolved
  simp [h]

/-! ## C7 -/

/-- C7: include resolution is idempotent.  (1) When `add_from_include`
resolves an include to `ok id` with resulting store `db2`, resolving the
same include from the same referrer against `db2` yields the same id and
leaves `db2` unchanged.  (2) The free `lex_file` returns the cached token
slice for a file present in the token store, without touching the file
store.  (3) At the include site of `lex_macro`, a cached target that is not
in-progress is answered from the token cache (no re-lex: the state is
returned unchanged, with only the `Include` marker token emitted). -/
theorem c7_include_resolution_idempotent :
    (∀ (hostFs : String → Option (List Nat)) (db db2 : FileDb) (inc : String)
        (file id : Nat),
      FileDb.addFromInclude hostFs db inc file = some (db2, .ok id) →
      FileDb.addFromInclude hostFs db2 inc file = some (db2, .ok id)) ∧
    (∀ (ctx : LexCtx) (fuel file : Nat) (tdb : TokenDb) (db : FileDb)
        (toks : List Token),
      alGet tdb file = some toks →
      lexFileTop ctx fuel file tdb db = some (tdb, db, .ok toks)) ∧
    (∀ (recur : LexFileFn) (file includeId begin0 cur : Nat)
        (output : List Token) (inc : List Nat) (tdb : TokenDb) (db : FileDb),
      hsContains inc includeId = false →
      (alGet tdb includeId).isSome = true →
      includeQuotedResolved recur file includeId begin0 cur output inc tdb db =
        some (cur,
          output ++ [Token.new (.Include includeId) begin0 cur file],
          inc, tdb, db, .ok ())) := by
  refine ⟨?_, ?_, ?_⟩
  · intro hostFs db db2 inc file id h
    unfold FileDb.addFromInclude at h ⊢
    split at h
    · rename_i hrel
      rw [if_pos hrel]
      cases href : db.files.getD file none with
      | none =>
        rw [href] at h
        exact Option.noConfusion h
      | some referrer =>
        cases hpar : parentIfFile referrer.name with
        | none =>
          simp only [href, hpar] at h
          exact Option.noConfusion h
        | some basePath =>
          cases hlook : alGet db.fileNames (pathJoin basePath inc) with
          | some id0 =>
            simp only [href, hpar, hlook, Option.some.injEq, Prod.mk.injEq,
              Except.ok.injEq] at h
            obtain ⟨hdb, hid⟩ := h
            subst hdb hid
            simp only [href, hpar, hlook]
          | none =>
            cases hfs : db.fsReadAccess with
            | false =>
              simp only [href, hpar, hlook] at h
              rw [if_pos (by simp [hfs])] at h
              exact absurd h (by simp)
            | true =>
              cases hread : hostFs (pathJoin basePath inc) with
              | none =>
                simp only [href, hpar, hlook] at h
                rw [if_neg (by simp [hfs])] at h
                simp only [hread] at h
                exact absurd h (by simp)
              | some source =>
                cases hadd : db.add (pathJoin basePath inc) source with
                | error e =>
                  simp only [href, hpar, hlook] at h
                  rw [if_neg (by simp [hfs])] at h
                  simp only [hread, hadd] at h
                  exact absurd h (by simp)
                | ok pr =>
                  obtain ⟨id1, db50⟩ := pr
                  simp only [href, hpar, hlook] at h
                  rw [if_neg (by simp [hfs])] at h
                  simp only [hread, hadd, Option.some.injEq,
                    Prod.mk.injEq, Except.ok.injEq] at h
                  obtain ⟨hdb, hid⟩ := h
                  subst hdb hid
                  unfold FileDb.add at hadd
                  simp only [hlook, Except.ok.injEq, Prod.mk.injEq] at hadd
                  obtain ⟨hid1, hdb50⟩ := hadd
                  subst hid1 hdb50
                  simp only [getD_append_some db.files
                      [some (File.new (pathJoin basePath inc) source)]
                      file referrer href,
                    hpar, alGet_alInsert_self]
    · rename_i hrel
      rw [if_neg hrel]
      cases hlook : alGet db.fileNames inc with
      | some id0 =>
        simp only [hlook, Option.some.injEq, Prod.mk.injEq,
          Except.ok.injEq] at h
        obtain ⟨hdb, hid⟩ := h
        subst hdb hid
        simp only [hlook]
      | none =>
        cases hfs : db.fsReadAccess with
        | false =>
          simp only [hlook] at h
          rw [if_pos (by simp [hfs])] at h
          exact absurd h (by simp)
        | true =>
          cases hread : hostFs inc with
          | none =>
            simp only [hlook] at h
            rw [if_neg (by simp [hfs])] at h
            simp only [hread] at h
            exact absurd h (by simp)
          | some source =>
            cases hadd : db.add inc source with
            | error e =>
              simp only [hlook] at h
              rw [if_neg (by simp [hfs])] at h
              simp only [hread, hadd] at h
              exact absurd h (by simp)
            | ok pr =>
              obtain ⟨id1, db50⟩ := pr
              simp only [hlook] at h
              rw [if_neg (by simp [hfs])] at h
              simp only [hread, hadd, Option.some.injEq,
                Prod.mk.injEq, Except.ok.injEq] at h
              obtain ⟨hdb, hid⟩ := h
              subst hdb hid
              unfold FileDb.add at hadd
              simp only [hlook, Except.ok.injEq, Prod.mk.injEq] at hadd
              obtain ⟨hid1, hdb50⟩ := hadd
              subst hid1 hdb50
              simp only [alGet_alInsert_self]
  · intro ctx fuel file tdb db toks h
    unfold lexFileTop
    simp [h]
  · intro recur file includeId begin0 cur output inc tdb db h1 h2
    unfold includeQuotedResolved
    simp [h1, h2]

/-! ## C9 -/

/-- Setting one element of a mapped range is mapping a pointwise update. -/
lemma mapRange_set {α : Type} (K c : Nat) (f : Nat → α) (x : α) :
    ((List.range K).map f).set c x =
      (List.range K).map (fun i => if i = c then x else f i) := by
  apply List.ext_getElem
  · simp
  · intro i h1 h2
    simp only [List.length_set, List.length_map, List.length_range] at h1
    rw [List.getElem_set]
    simp only [List.getElem_map, List.getElem_range]
    split
    · rename_i he
      subst he
      simp
    · rename_i he
      simp [Ne.symm he]

/-- One `run_op_count(5000)` call on an all-runnable kernel runs exactly one
full quantum of the cursor process and rotates the cursor. -/
lemma runOpCount_fair_step (K c0 : Nat) (opsOf : Nat → Nat) (hc : c0 < K) :
    Kernel.runOpCount interpRunnable 2 (fairKernel K c0 opsOf) 5000 =
      some (fairKernel K ((c0 + 1) % K)
        (fun i => if i = c0 then opsOf i + 5000 else opsOf i),
        .ok .Running) := by
  have hK : K ≠ 0 := by omega
  have h2 : (2 : Nat) = 1 + 1 := rfl
  rw [Kernel.runOpCount, h2, runOpCountGo]
  have hget : ((List.range K).map (fun i => runnableEntry (opsOf i)))[c0]? =
      some (runnableEntry (opsOf c0)) := by
    simp [List.getElem?_range, hc]
  simp only [fairKernel, runnableEntry, interpRunnable,
    PROC_MAX_OP_COUNT] at hget ⊢
  rw [hget]
  rw [if_pos (show (5000:Nat) > 0 ∧ K ≠ 0 from ⟨by norm_num, hK⟩)]
  dsimp only
  simp only [List.length_set, List.length_map, List.length_range,
    Nat.sub_zero, Nat.min_self, Nat.sub_self]
  rw [mapRange_set]
  have hmap : (List.range K).map
      (fun i => if i = c0 then runnableEntry (opsOf c0 + 5000)
        else runnableEntry (opsOf i)) =
    (List.range K).map
      (fun i => runnableEntry (if i = c0 then opsOf i + 5000 else opsOf i)) := by
    apply List.map_congr_left
    intro i _
    by_cases hi : i = c0
    · subst hi
      simp
    · simp [hi]
  simp only [runnableEntry] at hmap
  rw [hmap]
  have hzero : ∀ (kk : Kernel), runOpCountGo interpRunnable 1 kk 0 =
      some (kk, .ok .Running) := by
    intro kk
    rw [show (1:Nat) = 0 + 1 from rfl, runOpCountGo]
    norm_num
  by_cases hcK : c0 + 1 = K
  · rw [if_pos hcK, hcK, Nat.mod_self, hzero]
  · rw [if_neg hcK, Nat.mod_eq_of_lt (by omega), hzero]

/-- Repeatedly calling `run_op_count(5000)` on an all-runnable kernel
advances the cursor round-robin and gives each process 5000 ops per
scheduled quantum, `schedCount` counting its quanta. -/
lemma iterCalls_fair (K : Nat) (hK : 0 < K) :
    ∀ (N c0 : Nat) (opsOf : Nat → Nat), c0 < K →
    iterCalls N (fairKernel K c0 opsOf) =
      some (fairKernel K ((c0 + N) % K)
        (fun i => opsOf i + 5000 * schedCount K c0 N i)) := by
  intro N
  induction N with
  | zero =>
    intro c0 opsOf hc
    rw [iterCalls, Nat.add_zero, Nat.mod_eq_of_lt hc]
    exact rfl
  | succ n ih =>
    intro c0 opsOf hc
    rw [iterCalls, runOpCount_fair_step K c0 opsOf hc]
    dsimp only
    rw [ih ((c0 + 1) % K) _ (Nat.mod_lt _ hK)]
    congr 1
    congr 1
    · rw [Nat.mod_add_mod]
      congr 1
      omega
    · funext i
      rw [schedCount]
      by_cases hi : i = c0
      · subst hi
        simp only [eq_self_iff_true, if_true, if_pos rfl]
        omega
      · simp only [if_neg hi, if_neg (Ne.symm hi)]
        omega

/-- Right-recursion for `schedCount`: the `N+1`-st quantum goes to the
cursor position reached after `N` rotations. -/
lemma schedCount_succ_right (K : Nat) (hK : 0 < K) :
    ∀ (N c0 i : Nat), c0 < K →
      schedCount K c0 (N + 1) i =
        schedCount K c0 N i + (if (c0 + N) % K = i then 1 else 0) := by
  intro N
  induction N with
  | zero =>
    intro c0 i hc
    rw [schedCount, schedCount, schedCount]
    simp [Nat.mod_eq_of_lt hc]
  | succ n ih =>
    intro c0 i hc
    rw [schedCount, ih ((c0 + 1) % K) i (Nat.mod_lt _ hK)]
    conv_rhs => rw [schedCount]
    rw [Nat.mod_add_mod]
    have he : c0 + 1 + n = c0 + (n + 1) := by omega
    rw [he, Nat.add_assoc]

/-- Closed form: over `N` quanta, a position at rotation distance `d` from
the start cursor is scheduled `N / K` times, plus once more when `d` falls
inside the final partial pass. -/
lemma schedCount_closed (K c0 i d : Nat) (hK : 0 < K) (hc : c0 < K)
    (hdK : d < K) (hkey : ∀ r, r < K → ((c0 + r) % K = i ↔ r = d)) :
    ∀ N, schedCount K c0 N i = N / K + (if d < N % K then 1 else 0) := by
  intro N
  induction N with
  | zero =>
    rw [schedCount]
    simp
  | succ n ih =>
    rw [schedCount_succ_right K hK n c0 i hc, ih]
    have hm := Nat.mod_lt n hK
    have hmodeq : (c0 + n) % K = (c0 + n % K) % K := by
      conv_lhs => rw [Nat.add_mod]
      rw [Nat.mod_eq_of_lt hc]
    rw [hmodeq, if_congr (hkey (n % K) hm) rfl rfl]
    have hdm := Nat.div_add_mod n K
    rcases Nat.lt_or_ge (n % K + 1) K with hr | hr
    · have e2 : n + 1 = K * (n / K) + (n % K + 1) := by omega
      have hdiv : (n + 1) / K = n / K := by
        rw [e2, Nat.mul_add_div hK, Nat.div_eq_of_lt hr, Nat.add_zero]
      have hmod2 : (n + 1) % K = n % K + 1 := by
        rw [e2, Nat.mul_add_mod, Nat.mod_eq_of_lt hr]
      rw [hdiv, hmod2]
      split_ifs <;> omega
    · have hrK : n % K + 1 = K := by omega
      have e2 : n + 1 = K * (n / K + 1) := by
        rw [Nat.mul_add, Nat.mul_one]
        omega
      have hdiv : (n + 1) / K = n / K + 1 := by
        rw [e2, Nat.mul_div_cancel_left _ hK]
      have hmod2 : (n + 1) % K = 0 := by
        rw [e2]
        exact Nat.mul_mod_right K _
      rw [hdiv, hmod2]
      split_ifs <;> omega

/-- C9: the scheduler is round-robin over quanta of
`PROC_MAX_OP_COUNT = 5000` ops.  Under repeated host calls of
`run_op_count(5000)` with `K` processes that all stay runnable, after `N`
calls the cursor has advanced `N` steps modulo `K`, every scheduled
quantum ran exactly 5000 ops of its process, and each process was
scheduled exactly `⌊N/K⌋` or `⌈N/K⌉` times. -/
theorem c9_round_robin_fair_quota (K N : Nat) (opsOf : Nat → Nat)
    (hK : 0 < K) :
    PROC_MAX_OP_COUNT = 5000 ∧
    iterCalls N (fairKernel K 0 opsOf) =
      some (fairKernel K (N % K)
        (fun i => opsOf i + 5000 * schedCount K 0 N i)) ∧
    ∀ i, i < K →
      schedCount K 0 N i = N / K ∨ schedCount K 0 N i = (N + K - 1) / K := by
  refine ⟨rfl, ?_, ?_⟩
  · have h := iterCalls_fair K hK N 0 opsOf hK
    rwa [Nat.zero_add] at h
  · intro i hi
    have hkey : ∀ r, r < K → ((0 + r) % K = i ↔ r = i) := by
      intro r hr
      rw [Nat.zero_add, Nat.mod_eq_of_lt hr]
    rw [schedCount_closed K 0 i i hK hK hi hkey N]
    by_cases hlt : i < N % K
    · right
      rw [if_pos hlt]
      have hdm := Nat.div_add_mod N K
      have hm := Nat.mod_lt N hK
      have e2 : N + K - 1 = K * (N / K + 1) + (N % K - 1) := by
        rw [Nat.mul_add, Nat.mul_one]
        omega
      have hm1 : N % K - 1 < K := by omega
      rw [e2, Nat.mul_add_div hK, Nat.div_eq_of_lt hm1, Nat.add_zero]
    · left
      rw [if_neg hlt, Nat.add_zero]

/-- Witness for C9 at three runnable processes and seven quanta. -/
theorem c9_round_robin_fair_quota_witness :
    PROC_MAX_OP_COUNT = 5000 ∧
    iterCalls 7 (fairKernel 3 0 (fun _ => 0)) =
      some (fairKernel 3 (7 % 3)
        (fun i => 0 + 5000 * schedCount 3 0 7 i)) ∧
    ∀ i, i < 3 →
      schedCount 3 0 7 i = 7 / 3 ∨ schedCount 3 0 7 i = (7 + 3 - 1) / 3 :=
  c9_round_robin_fair_quota 3 7 (fun _ => 0) (by decide)

end TCI
